import Mathlib

/-!
Shallow embedding of the `chip8` crate of the `chip8_rs` repository
(`chip8/src/lib.rs`), together with proofs about its instruction
semantics, loader, timers and reachable-state invariants.

Modelling conventions:
* Machine integers are `Nat`s; wrapping arithmetic of the released Rust
  binary is written with an explicit `% 2^w` (helpers `add8`, `sub8`).
* The fixed-size Rust arrays (`memory`, `V`, `stack`, `display`, `keys`)
  are total functions `Nat → _`; every place the Rust code indexes an
  array with an index that is not a syntactic nibble carries the same
  bound check the Rust runtime performs, and an out-of-bounds access
  (a Rust panic, as is the `unimplemented!` arm) is modelled as `none`.
* The thread-local random generator is externalised: `Chip8.cycle` takes
  the byte that `rand_dist.sample` would produce as an argument `rand`;
  the set of bytes the sampler can produce is modelled separately by
  `rand_dist_mem` (the source builds the sampler with
  `Uniform::from(0..0xFF)`, a half-open range).
* `Chip8.load` receives the ROM file contents as a byte list (file
  I/O itself is outside the embedded core); a successful `read_exact`
  copies exactly those bytes.
-/

namespace ChipEmb

/-- Pointwise update of a function-represented array, `a[i] = v`. -/
def upd {α : Type} (f : Nat → α) (i : Nat) (v : α) : Nat → α :=
  fun j => if j = i then v else f j

/-- The 80-byte font table `SPRITES` copied to address 0 by `Chip8::new`. -/
def SPRITES : List Nat :=
  [0xF0, 0x90, 0x90, 0x90, 0xF0, 0x20, 0x60, 0x20, 0x20, 0x70,
   0xF0, 0x10, 0xF0, 0x80, 0xF0, 0xF0, 0x10, 0xF0, 0x10, 0xF0,
   0x90, 0x90, 0xF0, 0x10, 0x10, 0xF0, 0x80, 0xF0, 0x10, 0xF0,
   0xF0, 0x80, 0xF0, 0x90, 0xF0, 0xF0, 0x10, 0x20, 0x40, 0x40,
   0xF0, 0x90, 0xF0, 0x90, 0xF0, 0xF0, 0x90, 0xF0, 0x10, 0xF0,
   0xF0, 0x90, 0xF0, 0x90, 0x90, 0xE0, 0x90, 0xE0, 0x90, 0xE0,
   0xF0, 0x80, 0x80, 0x80, 0xF0, 0xE0, 0x90, 0x90, 0x90, 0xE0,
   0xF0, 0x80, 0xF0, 0x80, 0xF0, 0xF0, 0x80, 0xF0, 0x80, 0x80]

/-- State of the interpreter: the fields of `struct Chip8` (minus the
two rng fields, which are externalised as described above). -/
structure Chip8 where
  memory : Nat → Nat
  V : Nat → Nat
  stack : Nat → Nat
  display : Nat → Bool
  keys : Nat → Bool
  I : Nat
  pc : Nat
  sp : Nat
  DT : Nat
  ST : Nat
  tmp : Bool

/-- `Chip8::new`: zeroed state, font table copied to the start of memory. -/
def Chip8.new : Chip8 :=
  { memory := fun a => if a < 80 then SPRITES.getD a 0 else 0
    V := fun _ => 0
    stack := fun _ => 0
    display := fun _ => false
    keys := fun _ => false
    I := 0
    pc := 0
    sp := 0
    DT := 0
    ST := 0
    tmp := false }

/-- The `Error` enum of the crate (the `Io` variant is file-system
territory and has no counterpart in the byte-list model). -/
inductive Error where
  | ROMIsTooBig (size : Nat)
deriving DecidableEq

/-- `Chip8::load`, with the ROM file contents given as its byte list:
reject images larger than `0xFFF - 0x200` bytes, otherwise copy the
bytes to `0x200..` and point `pc` at `0x200`. -/
def Chip8.load (s : Chip8) (rom : List Nat) : Except Error Chip8 :=
  if rom.length > 0xFFF - 0x200 then .error (.ROMIsTooBig rom.length)
  else .ok { s with
    memory := fun a =>
      if 0x200 ≤ a ∧ a < 0x200 + rom.length then rom.getD (a - 0x200) 0
      else s.memory a
    pc := 0x200 }

/-- `Chip8::timer`: each timer loses one when positive. -/
def Chip8.timer (s : Chip8) : Chip8 :=
  { s with
    DT := if s.DT > 0 then s.DT - 1 else s.DT
    ST := if s.ST > 0 then s.ST - 1 else s.ST }

/-- Wrapping `u8` addition. -/
def add8 (a b : Nat) : Nat := (a + b) % 256

/-- Wrapping `u8` subtraction (the release-build semantics of `a - b`). -/
def sub8 (a b : Nat) : Nat := (a + (256 - b % 256)) % 256

/-- Membership in the support of `rand_dist = Uniform::from(0..0xFF)`:
the sampled byte lies in the half-open range `[0, 0xFF)`. -/
def rand_dist_mem (b : Nat) : Bool := b < 0xFF

/-- One inner iteration of the `Dxyn` loop, with loop variable `j`
running downwards as in `for j in (0..8).rev()`; the fold state is the
pair (display, V15). -/
def drawStep (x y i byte : Nat) (st : (Nat → Bool) × Nat) (j : Nat) :
    (Nat → Bool) × Nat :=
  let bit := (byte >>> j) &&& 1 != 0
  let index := (x + (7 - j)) % 64 + 64 * ((y + i) % 32)
  let vf := if st.1 index && bit then 1 else st.2
  (upd st.1 index (xor (st.1 index) bit), vf)

/-- One row (`i`) of the `Dxyn` sprite loop. -/
def drawRow (x y i byte : Nat) (st : (Nat → Bool) × Nat) :
    (Nat → Bool) × Nat :=
  ((List.range 8).reverse).foldl (drawStep x y i byte) st

/-- The full two-level `Dxyn` loop over the `n` sprite rows. -/
def drawSprite (mem : Nat → Nat) (i0 x y n : Nat) (st : (Nat → Bool) × Nat) :
    (Nat → Bool) × Nat :=
  (List.range n).foldl (fun st i => drawRow x y i (mem (i0 + i)) st) st

/-- Display index written by sprite row `i`, bit offset `t` (`t = 7 - j`):
column `(x + t) % 64`, row `(y + i) % 32`, row-major. -/
def dIdx (x y i t : Nat) : Nat := (x + t) % 64 + 64 * ((y + i) % 32)

/-- Sprite bit of `byte` at bit offset `t` from the most significant
bit (`t = 7 - j` in the source loop). -/
def sbit (byte t : Nat) : Bool := (byte >>> (7 - t)) &&& 1 != 0

/-- The six decode fields bound at the top of the `cycle` match
(`o`, `nnn`, `n`, `x`, `y`, `kk`), as functions of the opcode. -/
def dec_o (opcode : Nat) : Nat := (opcode &&& 0xF000) >>> 12

/-- Low 12 bits of the opcode (`nnn`). -/
def dec_nnn (opcode : Nat) : Nat := opcode &&& 0x0FFF

/-- Low nibble of the opcode (`n`). -/
def dec_n (opcode : Nat) : Nat := opcode &&& 0x000F

/-- Register index `x`, bits 8-11 of the opcode. -/
def dec_x (opcode : Nat) : Nat := (opcode &&& 0x0F00) >>> 8

/-- Register index `y`, bits 4-7 of the opcode. -/
def dec_y (opcode : Nat) : Nat := (opcode &&& 0x00F0) >>> 4

/-- Low byte of the opcode (`kk`). -/
def dec_kk (opcode : Nat) : Nat := opcode &&& 0x00FF

/-- Arm `00E0`: clear the display. -/
def op_00E0 (s : Chip8) : Option Chip8 :=
  some { s with display := fun _ => false }

/-- Arm `00EE`: `pc := stack[sp]; sp -= 1` (wrapping; the read is
bound-checked, `sp = 0` underflows to 255 as in a release build). -/
def op_00EE (s : Chip8) : Option Chip8 :=
  if s.sp < 16 then some { s with pc := s.stack s.sp, sp := (s.sp + 255) % 256 }
  else none

/-- Arm `1nnn`: jump. -/
def op_1nnn (s : Chip8) (nnn : Nat) : Option Chip8 :=
  some { s with pc := nnn }

/-- Arm `2nnn`: `sp += 1; stack[sp] := pc; pc := nnn` (the write is
bound-checked). -/
def op_2nnn (s : Chip8) (nnn : Nat) : Option Chip8 :=
  let sp := (s.sp + 1) % 256
  if sp < 16 then some { s with sp := sp, stack := upd s.stack sp s.pc, pc := nnn }
  else none

/-- Arm `3xkk`: skip if `Vx = kk`. -/
def op_3xkk (s : Chip8) (x kk : Nat) : Option Chip8 :=
  some (if s.V x = kk then { s with pc := (s.pc + 2) % 65536 } else s)

/-- Arm `4xkk`: skip if `Vx ≠ kk`. -/
def op_4xkk (s : Chip8) (x kk : Nat) : Option Chip8 :=
  some (if s.V x ≠ kk then { s with pc := (s.pc + 2) % 65536 } else s)

/-- Arm `5xy0`: skip if `Vx = Vy`. -/
def op_5xy0 (s : Chip8) (x y : Nat) : Option Chip8 :=
  some (if s.V x = s.V y then { s with pc := (s.pc + 2) % 65536 } else s)

/-- Arm `6xkk`: `Vx := kk`. -/
def op_6xkk (s : Chip8) (x kk : Nat) : Option Chip8 :=
  some { s with V := upd s.V x kk }

/-- Arm `7xkk`: `Vx += kk`, wrapping. -/
def op_7xkk (s : Chip8) (x kk : Nat) : Option Chip8 :=
  some { s with V := upd s.V x (add8 (s.V x) kk) }

/-- Arm `8xy0`: `Vx := Vy`. -/
def op_8xy0 (s : Chip8) (x y : Nat) : Option Chip8 :=
  some { s with V := upd s.V x (s.V y) }

/-- Arm `8xy1`: `Vx |= Vy`. -/
def op_8xy1 (s : Chip8) (x y : Nat) : Option Chip8 :=
  some { s with V := upd s.V x (s.V x ||| s.V y) }

/-- Arm `8xy2`: `Vx &= Vy`. -/
def op_8xy2 (s : Chip8) (x y : Nat) : Option Chip8 :=
  some { s with V := upd s.V x (s.V x &&& s.V y) }

/-- Arm `8xy3`: `Vx ^= Vy`. -/
def op_8xy3 (s : Chip8) (x y : Nat) : Option Chip8 :=
  some { s with V := upd s.V x (s.V x ^^^ s.V y) }

/-- Arm `8xy4`: 16-bit sum, carry into `V15`, then the low byte into
`Vx` (reading the possibly-aliased array). -/
def op_8xy4 (s : Chip8) (x y : Nat) : Option Chip8 :=
  let sum := s.V x + s.V y
  let s1 := { s with V := upd s.V 15 (if sum > 0xFF then 1 else 0) }
  some { s1 with V := upd s1.V x (sum &&& 0xFF) }

/-- Arm `8xy5`: borrow flag first, then `Vx -= Vy` on the updated
array. -/
def op_8xy5 (s : Chip8) (x y : Nat) : Option Chip8 :=
  let s1 := { s with V := upd s.V 15 (if s.V x ≥ s.V y then 1 else 0) }
  some { s1 with V := upd s1.V x (sub8 (s1.V x) (s1.V y)) }

/-- Arm `8xy6`: flag takes `Vx & 1` first, then `Vx >>= 1` on the
updated array. -/
def op_8xy6 (s : Chip8) (x y : Nat) : Option Chip8 :=
  let s1 := { s with V := upd s.V 15 (s.V x &&& 1) }
  some { s1 with V := upd s1.V x (s1.V x >>> 1) }

/-- Arm `8xy7`: flag first, then `Vx := Vy - Vx` on the updated
array. -/
def op_8xy7 (s : Chip8) (x y : Nat) : Option Chip8 :=
  let s1 := { s with V := upd s.V 15 (if s.V y ≥ s.V x then 1 else 0) }
  some { s1 with V := upd s1.V x (sub8 (s1.V y) (s1.V x)) }

/-- Arm `8xyE`: flag takes `Vx >> 7` first, then `Vx <<= 1` on the
updated array. -/
def op_8xyE (s : Chip8) (x y : Nat) : Option Chip8 :=
  let s1 := { s with V := upd s.V 15 (s.V x >>> 7) }
  some { s1 with V := upd s1.V x ((s1.V x <<< 1) % 256) }

/-- Arm `9xy0`: skip if `Vx ≠ Vy`. -/
def op_9xy0 (s : Chip8) (x y : Nat) : Option Chip8 :=
  some (if s.V x ≠ s.V y then { s with pc := (s.pc + 2) % 65536 } else s)

/-- Arm `Annn`: `I := nnn`. -/
def op_Annn (s : Chip8) (nnn : Nat) : Option Chip8 :=
  some { s with I := nnn }

/-- Arm `Bnnn`: `pc := nnn + V0`. -/
def op_Bnnn (s : Chip8) (nnn : Nat) : Option Chip8 :=
  some { s with pc := nnn + s.V 0 }

/-- Arm `Cxkk`: `Vx := sample & kk`, the sampled byte passed in. -/
def op_Cxkk (s : Chip8) (x kk rand : Nat) : Option Chip8 :=
  some { s with V := upd s.V x (rand &&& kk) }

/-- Arm `Dxyn`: clear the flag, then run the sprite loop (the `n`
memory reads are bound-checked). -/
def op_Dxyn (s : Chip8) (x y n : Nat) : Option Chip8 :=
  let vx := s.V x
  let vy := s.V y
  let s1 := { s with V := upd s.V 15 0 }
  if n = 0 ∨ s.I + n ≤ 4096 then
    let r := drawSprite s1.memory s1.I vx vy n (s1.display, 0)
    some { s1 with display := r.1, V := upd s1.V 15 r.2 }
  else none

/-- Arm `Ex9E`: skip if key `Vx` pressed (the latch read is
bound-checked). -/
def op_Ex9E (s : Chip8) (x : Nat) : Option Chip8 :=
  if s.V x < 16 then
    some (if s.keys (s.V x) then { s with pc := (s.pc + 2) % 65536 } else s)
  else none

/-- Arm `ExA1`: skip if key `Vx` not pressed. -/
def op_ExA1 (s : Chip8) (x : Nat) : Option Chip8 :=
  if s.V x < 16 then
    some (if !s.keys (s.V x) then { s with pc := (s.pc + 2) % 65536 } else s)
  else none

/-- Arm `Fx07`: `Vx := DT`. -/
def op_Fx07 (s : Chip8) (x : Nat) : Option Chip8 :=
  some { s with V := upd s.V x s.DT }

/-- Arm `Fx0A`: roll `pc` back by two, then scan the key latch for the
first pressed index; on a hit store it in `Vx` and re-advance `pc`. -/
def op_Fx0A (s : Chip8) (x : Nat) : Option Chip8 :=
  let s1 := { s with pc := s.pc - 2 }
  match (List.range 16).find? s.keys with
  | none => some s1
  | some i => some { s1 with V := upd s1.V x i, pc := (s1.pc + 2) % 65536 }

/-- Arm `Fx15`: `DT := Vx`. -/
def op_Fx15 (s : Chip8) (x : Nat) : Option Chip8 :=
  some { s with DT := s.V x }

/-- Arm `Fx18`: `ST := Vx`. -/
def op_Fx18 (s : Chip8) (x : Nat) : Option Chip8 :=
  some { s with ST := s.V x }

/-- Arm `Fx1E`: `I += Vx`, wrapping in 16 bits. -/
def op_Fx1E (s : Chip8) (x : Nat) : Option Chip8 :=
  some { s with I := (s.I + s.V x) % 65536 }

/-- Arm `Fx29`: `I := Vx * 5`. -/
def op_Fx29 (s : Chip8) (x : Nat) : Option Chip8 :=
  some { s with I := s.V x * 5 }

/-- Arm `Fx33`: the three decimal digits of `Vx` at `I`, `I+1`, `I+2`
(writes bound-checked). -/
def op_Fx33 (s : Chip8) (x : Nat) : Option Chip8 :=
  if s.I + 2 < 4096 then
    let m1 := upd s.memory s.I (s.V x / 100 % 10)
    let m2 := upd m1 (s.I + 1) (s.V x / 10 % 10)
    let m3 := upd m2 (s.I + 2) (s.V x % 10)
    some { s with memory := m3 }
  else none

/-- Arm `Fx55`: store `V0..Vx` at `I..` (writes bound-checked). -/
def op_Fx55 (s : Chip8) (x : Nat) : Option Chip8 :=
  if s.I + x < 4096 then
    let m := (List.range (x + 1)).foldl
      (fun m offset => upd m (s.I + offset) (s.V offset)) s.memory
    some { s with memory := m }
  else none

/-- Arm `Fx65`: load `V0..Vx` from `I..` (reads bound-checked). -/
def op_Fx65 (s : Chip8) (x : Nat) : Option Chip8 :=
  if s.I + x < 4096 then
    let v := (List.range (x + 1)).foldl
      (fun v offset => upd v offset (s.memory (s.I + offset))) s.V
    some { s with V := v }
  else none

/-- The decode-dispatch `match` of `Chip8::cycle`, applied to the state
whose `pc` has already been advanced past the fetched `opcode`. The
arms appear in source order, each embedded by its own `op_…`
definition; `rand` stands for the byte sampled in the `Cxkk` arm;
`none` models a panic (out-of-bounds index, or the `unimplemented!`
fall-through arm). -/
def Chip8.dispatch (s : Chip8) (opcode rand : Nat) : Option Chip8 :=
  if dec_o opcode = 0 ∧ dec_kk opcode = 0xE0 then op_00E0 s
  else if dec_o opcode = 0 ∧ dec_kk opcode = 0xEE then op_00EE s
  else if dec_o opcode = 1 then op_1nnn s (dec_nnn opcode)
  else if dec_o opcode = 2 then op_2nnn s (dec_nnn opcode)
  else if dec_o opcode = 3 then op_3xkk s (dec_x opcode) (dec_kk opcode)
  else if dec_o opcode = 4 then op_4xkk s (dec_x opcode) (dec_kk opcode)
  else if dec_o opcode = 5 ∧ dec_n opcode = 0 then op_5xy0 s (dec_x opcode) (dec_y opcode)
  else if dec_o opcode = 6 then op_6xkk s (dec_x opcode) (dec_kk opcode)
  else if dec_o opcode = 7 then op_7xkk s (dec_x opcode) (dec_kk opcode)
  else if dec_o opcode = 8 ∧ dec_n opcode = 0 then op_8xy0 s (dec_x opcode) (dec_y opcode)
  else if dec_o opcode = 8 ∧ dec_n opcode = 1 then op_8xy1 s (dec_x opcode) (dec_y opcode)
  else if dec_o opcode = 8 ∧ dec_n opcode = 2 then op_8xy2 s (dec_x opcode) (dec_y opcode)
  else if dec_o opcode = 8 ∧ dec_n opcode = 3 then op_8xy3 s (dec_x opcode) (dec_y opcode)
  else if dec_o opcode = 8 ∧ dec_n opcode = 4 then op_8xy4 s (dec_x opcode) (dec_y opcode)
  else if dec_o opcode = 8 ∧ dec_n opcode = 5 then op_8xy5 s (dec_x opcode) (dec_y opcode)
  else if dec_o opcode = 8 ∧ dec_n opcode = 6 then op_8xy6 s (dec_x opcode) (dec_y opcode)
  else if dec_o opcode = 8 ∧ dec_n opcode = 7 then op_8xy7 s (dec_x opcode) (dec_y opcode)
  else if dec_o opcode = 8 ∧ dec_n opcode = 0xE then op_8xyE s (dec_x opcode) (dec_y opcode)
  else if dec_o opcode = 9 ∧ dec_n opcode = 0 then op_9xy0 s (dec_x opcode) (dec_y opcode)
  else if dec_o opcode = 0xA then op_Annn s (dec_nnn opcode)
  else if dec_o opcode = 0xB then op_Bnnn s (dec_nnn opcode)
  else if dec_o opcode = 0xC then op_Cxkk s (dec_x opcode) (dec_kk opcode) rand
  else if dec_o opcode = 0xD then op_Dxyn s (dec_x opcode) (dec_y opcode) (dec_n opcode)
  else if dec_o opcode = 0xE ∧ dec_kk opcode = 0x9E then op_Ex9E s (dec_x opcode)
  else if dec_o opcode = 0xE ∧ dec_kk opcode = 0xA1 then op_ExA1 s (dec_x opcode)
  else if dec_o opcode = 0xF ∧ dec_kk opcode = 0x07 then op_Fx07 s (dec_x opcode)
  else if dec_o opcode = 0xF ∧ dec_kk opcode = 0x0A then op_Fx0A s (dec_x opcode)
  else if dec_o opcode = 0xF ∧ dec_kk opcode = 0x15 then op_Fx15 s (dec_x opcode)
  else if dec_o opcode = 0xF ∧ dec_kk opcode = 0x18 then op_Fx18 s (dec_x opcode)
  else if dec_o opcode = 0xF ∧ dec_kk opcode = 0x1E then op_Fx1E s (dec_x opcode)
  else if dec_o opcode = 0xF ∧ dec_kk opcode = 0x29 then op_Fx29 s (dec_x opcode)
  else if dec_o opcode = 0xF ∧ dec_kk opcode = 0x33 then op_Fx33 s (dec_x opcode)
  else if dec_o opcode = 0xF ∧ dec_kk opcode = 0x55 then op_Fx55 s (dec_x opcode)
  else if dec_o opcode = 0xF ∧ dec_kk opcode = 0x65 then op_Fx65 s (dec_x opcode)
  else none

/-- `Chip8::cycle`: the `tmp` early-return guard, the big-endian fetch
of two bytes at `pc` (with the `u16` wrap of `pc + 1` and the bound
checks of the two memory indexings), the advance of `pc` by two, then
the dispatch. -/
def Chip8.cycle (s : Chip8) (rand : Nat) : Option Chip8 :=
  if s.tmp then some s
  else if s.pc < 4096 ∧ (s.pc + 1) % 65536 < 4096 then
    let opcode := (s.memory s.pc) <<< 8 ||| s.memory ((s.pc + 1) % 65536)
    Chip8.dispatch { s with pc := (s.pc + 2) % 65536 } opcode rand
  else none

/-- The `8xy4` arm of the second, divergent interpreter copy
(`src/lib.rs` of the root crate), acting on the value pair
`(Vx, Vy)` and returning the written `(Vx, V15)`: it tests
`sum > 0x10` where the canonical copy tests `sum > 0xFF`. -/
def divergent_8xy4 (vx vy : Nat) : Nat × Nat :=
  let sum := vx + vy
  let vf := if sum > 0x10 then 1 else 0
  (sum &&& 0xFF, vf)

/-- States reachable from `Chip8::new` by the public operations: a
successful `load`, a non-panicking `cycle` (for any sampled byte), a
`timer` tick, and the external driver overwriting the public `keys`
latch. -/
inductive Reachable : Chip8 → Prop where
  | init : Reachable Chip8.new
  | load {s rom s'} : Reachable s → Chip8.load s rom = .ok s' → Reachable s'
  | cycle {s r s'} : Reachable s → Chip8.cycle s r = some s' → Reachable s'
  | timer {s} : Reachable s → Reachable (Chip8.timer s)
  | setKeys {s} (k : Nat → Bool) : Reachable s → Reachable { s with keys := k }

/-- All-zero machine state used as a base point for concrete runs. -/
def zeroState : Chip8 :=
  { memory := fun _ => 0
    V := fun _ => 0
    stack := fun _ => 0
    display := fun _ => false
    keys := fun _ => false
    I := 0
    pc := 0x200
    sp := 0
    DT := 0
    ST := 0
    tmp := false }

/-- Machine whose program is the single opcode `hi lo` at `0x200`
(where `pc` points), with register file `v`. -/
def progAt (hi lo : Nat) (v : Nat → Nat) : Chip8 :=
  { zeroState with
    memory := upd (upd zeroState.memory 0x200 hi) 0x201 lo
    V := v }

/-- Machine with the single opcode `D011` at `0x200` and one sprite
byte `0x80` at `0x300`, pointed to by the address register. -/
def spriteTestState : Chip8 :=
  { progAt 0xD0 0x11 zeroState.V with
    memory := upd (progAt 0xD0 0x11 zeroState.V).memory 0x300 0x80
    I := 0x300 }

/-! Arithmetic characterisation of the bit-level opcode decode. -/

theorem and_shl_shr (x m k : Nat) : (x &&& (m <<< k)) >>> k = (x >>> k) &&& m := by
  apply Nat.eq_of_testBit_eq
  intro i
  rw [Nat.testBit_shiftRight, Nat.testBit_and, Nat.testBit_and, Nat.testBit_shiftRight,
    Nat.testBit_shiftLeft]
  simp [Nat.le_add_right]

theorem testBit_byte_ge (b i : Nat) (hb : b < 256) (h : 8 ≤ i) : b.testBit i = false := by
  have h2 : (256 : Nat) ≤ 2 ^ i := by
    have := Nat.pow_le_pow_right (show 0 < 2 by norm_num) h
    simpa using this
  exact Nat.testBit_lt_two_pow (lt_of_lt_of_le hb h2)

theorem opcode_hi (a b : Nat) (hb : b < 256) : (a <<< 8 ||| b) >>> 8 = a := by
  apply Nat.eq_of_testBit_eq
  intro i
  rw [Nat.testBit_shiftRight, Nat.testBit_lor, Nat.testBit_shiftLeft,
    testBit_byte_ge b (8 + i) hb (Nat.le_add_right 8 i)]
  simp [Nat.le_add_right]

theorem opcode_lo (a b : Nat) (hb : b < 256) : (a <<< 8 ||| b) &&& 255 = b := by
  apply Nat.eq_of_testBit_eq
  intro i
  rw [Nat.testBit_and, Nat.testBit_lor, Nat.testBit_shiftLeft]
  rcases Nat.lt_or_ge i 8 with h | h
  · have h255 : (255 : Nat).testBit i = true := by
      have := Nat.testBit_two_pow_sub_one 8 i
      norm_num at this
      simp [this, h]
    simp [h255, decide_eq_false (show ¬ i ≥ 8 by omega)]
  · have h255 : (255 : Nat).testBit i = false := by
      have := Nat.testBit_two_pow_sub_one 8 i
      norm_num at this
      simp [this, decide_eq_false (show ¬ i < 8 by omega)]
    simp [h255, testBit_byte_ge b i hb h]

theorem opcode_eq (a b : Nat) (hb : b < 256) : a <<< 8 ||| b = 256 * a + b := by
  have h3 : (a <<< 8 ||| b) % 256 = b := by
    have hm := Nat.and_pow_two_sub_one_eq_mod (a <<< 8 ||| b) 8
    norm_num at hm
    rw [← hm]
    exact opcode_lo a b hb
  have h4 : (a <<< 8 ||| b) / 256 = a := by
    have hd := Nat.shiftRight_eq_div_pow (a <<< 8 ||| b) 8
    norm_num at hd
    rw [← hd]
    exact opcode_hi a b hb
  have h5 := Nat.div_add_mod (a <<< 8 ||| b) 256
  omega

theorem decode_o (a b : Nat) (ha : a < 256) (hb : b < 256) :
    dec_o (a <<< 8 ||| b) = a / 16 := by
  rw [dec_o, show (0xF000 : Nat) = 15 <<< 12 by norm_num [Nat.shiftLeft_eq], and_shl_shr,
    Nat.shiftRight_eq_div_pow, opcode_eq a b hb,
    show (15 : Nat) = 2 ^ 4 - 1 by norm_num, Nat.and_pow_two_sub_one_eq_mod]
  simp only [show (2 : Nat) ^ 12 = 4096 by norm_num, show (2 : Nat) ^ 4 = 16 by norm_num]
  omega

theorem decode_x (a b : Nat) (ha : a < 256) (hb : b < 256) :
    dec_x (a <<< 8 ||| b) = a % 16 := by
  rw [dec_x, show (0x0F00 : Nat) = 15 <<< 8 by norm_num [Nat.shiftLeft_eq], and_shl_shr,
    Nat.shiftRight_eq_div_pow, opcode_eq a b hb,
    show (15 : Nat) = 2 ^ 4 - 1 by norm_num, Nat.and_pow_two_sub_one_eq_mod]
  simp only [show (2 : Nat) ^ 8 = 256 by norm_num, show (2 : Nat) ^ 4 = 16 by norm_num]
  omega

theorem decode_y (a b : Nat) (ha : a < 256) (hb : b < 256) :
    dec_y (a <<< 8 ||| b) = b / 16 := by
  rw [dec_y, show (0x00F0 : Nat) = 15 <<< 4 by norm_num [Nat.shiftLeft_eq], and_shl_shr,
    Nat.shiftRight_eq_div_pow, opcode_eq a b hb,
    show (15 : Nat) = 2 ^ 4 - 1 by norm_num, Nat.and_pow_two_sub_one_eq_mod]
  simp only [show (2 : Nat) ^ 4 = 16 by norm_num]
  omega

theorem decode_n (a b : Nat) (ha : a < 256) (hb : b < 256) :
    dec_n (a <<< 8 ||| b) = b % 16 := by
  rw [dec_n, opcode_eq a b hb, show (0x000F : Nat) = 2 ^ 4 - 1 by norm_num,
    Nat.and_pow_two_sub_one_eq_mod]
  simp only [show (2 : Nat) ^ 4 = 16 by norm_num]
  omega

theorem decode_kk (a b : Nat) (ha : a < 256) (hb : b < 256) :
    dec_kk (a <<< 8 ||| b) = b := by
  rw [dec_kk, opcode_eq a b hb, show (0x00FF : Nat) = 2 ^ 8 - 1 by norm_num,
    Nat.and_pow_two_sub_one_eq_mod]
  simp only [show (2 : Nat) ^ 8 = 256 by norm_num]
  omega

theorem decode_nnn (a b : Nat) (ha : a < 256) (hb : b < 256) :
    dec_nnn (a <<< 8 ||| b) = a % 16 * 256 + b := by
  rw [dec_nnn, opcode_eq a b hb, show (0x0FFF : Nat) = 2 ^ 12 - 1 by norm_num,
    Nat.and_pow_two_sub_one_eq_mod]
  simp only [show (2 : Nat) ^ 12 = 4096 by norm_num]
  omega

/-- With the `tmp` guard down and the fetch in bounds, `cycle` is the
fetch of the big-endian opcode followed by `dispatch` on the state with
`pc` advanced by two. -/
theorem cycle_eq_dispatch (s : Chip8) (r : Nat) (h1 : s.tmp = false)
    (h2 : s.pc + 1 < 4096) :
    Chip8.cycle s r =
      Chip8.dispatch { s with pc := s.pc + 2 }
        ((s.memory s.pc) <<< 8 ||| s.memory (s.pc + 1)) r := by
  have e1 : (s.pc + 1) % 65536 = s.pc + 1 := Nat.mod_eq_of_lt (by omega)
  have e2 : (s.pc + 2) % 65536 = s.pc + 2 := Nat.mod_eq_of_lt (by omega)
  unfold Chip8.cycle
  simp only [h1, Bool.false_eq_true, if_false, e1, e2]
  rw [if_pos ⟨by omega, by omega⟩]

theorem upd_same {α : Type} (f : Nat → α) (i : Nat) (v : α) : upd f i v i = v := by
  simp [upd]

theorem upd_other {α : Type} (f : Nat → α) (i j : Nat) (v : α) (h : j ≠ i) :
    upd f i v j = f j := by
  simp [upd, h]

theorem and_255 (m : Nat) : m &&& 0xFF = m % 256 := by
  rw [show (0xFF : Nat) = 2 ^ 8 - 1 by norm_num, Nat.and_pow_two_sub_one_eq_mod]

/-- The `8xy4` arm: carry test on the 16-bit sum, then the low byte of
the sum written to `Vx`. -/
theorem dispatch_8xy4 (s : Chip8) (r x y : Nat) (hx : x < 16) (hy : y < 16) :
    Chip8.dispatch s ((0x80 + x) <<< 8 ||| (16 * y + 4)) r =
      some { s with V := upd (upd s.V 15 (if s.V x + s.V y > 0xFF then 1 else 0)) x ((s.V x + s.V y) &&& 0xFF) } := by
  have ha : 0x80 + x < 256 := by omega
  have hb : 16 * y + 4 < 256 := by omega
  have ho : dec_o ((0x80 + x) <<< 8 ||| (16 * y + 4)) = 8 := by
    rw [decode_o _ _ ha hb]; omega
  have hx' : dec_x ((0x80 + x) <<< 8 ||| (16 * y + 4)) = x := by
    rw [decode_x _ _ ha hb]; omega
  have hy' : dec_y ((0x80 + x) <<< 8 ||| (16 * y + 4)) = y := by
    rw [decode_y _ _ ha hb]; omega
  have hn' : dec_n ((0x80 + x) <<< 8 ||| (16 * y + 4)) = 4 := by
    rw [decode_n _ _ ha hb]; omega
  have hkk' : dec_kk ((0x80 + x) <<< 8 ||| (16 * y + 4)) = 16 * y + 4 :=
    decode_kk _ _ ha hb
  simp only [Chip8.dispatch, op_8xy4, ho, hx', hy', hn', hkk']
  norm_num

/-- The `7xkk` arm: wrapping add of the immediate, no other effect. -/
theorem dispatch_7xkk (s : Chip8) (r x kk : Nat) (hx : x < 16) (hkk : kk < 256) :
    Chip8.dispatch s ((0x70 + x) <<< 8 ||| kk) r =
      some { s with V := upd s.V x (add8 (s.V x) kk) } := by
  have ha : 0x70 + x < 256 := by omega
  have ho : dec_o ((0x70 + x) <<< 8 ||| kk) = 7 := by
    rw [decode_o _ _ ha hkk]; omega
  have hx' : dec_x ((0x70 + x) <<< 8 ||| kk) = x := by
    rw [decode_x _ _ ha hkk]; omega
  have hkk' : dec_kk ((0x70 + x) <<< 8 ||| kk) = kk := decode_kk _ _ ha hkk
  simp only [Chip8.dispatch, op_7xkk, ho, hx', hkk']
  norm_num

/-- The `8xy5` arm: borrow flag written first, then the wrapping
subtraction, whose operands are read from the already-updated array. -/
theorem dispatch_8xy5 (s : Chip8) (r x y : Nat) (hx : x < 16) (hy : y < 16) :
    Chip8.dispatch s ((0x80 + x) <<< 8 ||| (16 * y + 5)) r =
      some { s with V := upd (upd s.V 15 (if s.V x ≥ s.V y then 1 else 0)) x (sub8 (upd s.V 15 (if s.V x ≥ s.V y then 1 else 0) x) (upd s.V 15 (if s.V x ≥ s.V y then 1 else 0) y)) } := by
  have ha : 0x80 + x < 256 := by omega
  have hb : 16 * y + 5 < 256 := by omega
  have ho : dec_o ((0x80 + x) <<< 8 ||| (16 * y + 5)) = 8 := by
    rw [decode_o _ _ ha hb]; omega
  have hx' : dec_x ((0x80 + x) <<< 8 ||| (16 * y + 5)) = x := by
    rw [decode_x _ _ ha hb]; omega
  have hy' : dec_y ((0x80 + x) <<< 8 ||| (16 * y + 5)) = y := by
    rw [decode_y _ _ ha hb]; omega
  have hn' : dec_n ((0x80 + x) <<< 8 ||| (16 * y + 5)) = 5 := by
    rw [decode_n _ _ ha hb]; omega
  simp only [Chip8.dispatch, op_8xy5, ho, hx', hy', hn']
  norm_num

/-- The `8xy6` arm: flag takes `Vx & 1` first, then `Vx` is shifted —
reading the array entry the flag write may just have aliased. -/
theorem dispatch_8xy6 (s : Chip8) (r x y : Nat) (hx : x < 16) (hy : y < 16) :
    Chip8.dispatch s ((0x80 + x) <<< 8 ||| (16 * y + 6)) r =
      some { s with V := upd (upd s.V 15 (s.V x &&& 1)) x (upd s.V 15 (s.V x &&& 1) x >>> 1) } := by
  have ha : 0x80 + x < 256 := by omega
  have hb : 16 * y + 6 < 256 := by omega
  have ho : dec_o ((0x80 + x) <<< 8 ||| (16 * y + 6)) = 8 := by
    rw [decode_o _ _ ha hb]; omega
  have hx' : dec_x ((0x80 + x) <<< 8 ||| (16 * y + 6)) = x := by
    rw [decode_x _ _ ha hb]; omega
  have hn' : dec_n ((0x80 + x) <<< 8 ||| (16 * y + 6)) = 6 := by
    rw [decode_n _ _ ha hb]; omega
  simp only [Chip8.dispatch, op_8xy6, ho, hx', hn']
  norm_num

/-- The `8xy7` arm: `Vx := Vy - Vx` with the flag written first. -/
theorem dispatch_8xy7 (s : Chip8) (r x y : Nat) (hx : x < 16) (hy : y < 16) :
    Chip8.dispatch s ((0x80 + x) <<< 8 ||| (16 * y + 7)) r =
      some { s with V := upd (upd s.V 15 (if s.V y ≥ s.V x then 1 else 0)) x (sub8 (upd s.V 15 (if s.V y ≥ s.V x then 1 else 0) y) (upd s.V 15 (if s.V y ≥ s.V x then 1 else 0) x)) } := by
  have ha : 0x80 + x < 256 := by omega
  have hb : 16 * y + 7 < 256 := by omega
  have ho : dec_o ((0x80 + x) <<< 8 ||| (16 * y + 7)) = 8 := by
    rw [decode_o _ _ ha hb]; omega
  have hx' : dec_x ((0x80 + x) <<< 8 ||| (16 * y + 7)) = x := by
    rw [decode_x _ _ ha hb]; omega
  have hy' : dec_y ((0x80 + x) <<< 8 ||| (16 * y + 7)) = y := by
    rw [decode_y _ _ ha hb]; omega
  have hn' : dec_n ((0x80 + x) <<< 8 ||| (16 * y + 7)) = 7 := by
    rw [decode_n _ _ ha hb]; omega
  simp only [Chip8.dispatch, op_8xy7, ho, hx', hy', hn']
  norm_num

/-- The `8xyE` arm: flag takes `Vx >> 7` first, then the wrapping
left shift of the possibly-aliased entry. -/
theorem dispatch_8xyE (s : Chip8) (r x y : Nat) (hx : x < 16) (hy : y < 16) :
    Chip8.dispatch s ((0x80 + x) <<< 8 ||| (16 * y + 14)) r =
      some { s with V := upd (upd s.V 15 (s.V x >>> 7)) x ((upd s.V 15 (s.V x >>> 7) x <<< 1) % 256) } := by
  have ha : 0x80 + x < 256 := by omega
  have hb : 16 * y + 14 < 256 := by omega
  have ho : dec_o ((0x80 + x) <<< 8 ||| (16 * y + 14)) = 8 := by
    rw [decode_o _ _ ha hb]; omega
  have hx' : dec_x ((0x80 + x) <<< 8 ||| (16 * y + 14)) = x := by
    rw [decode_x _ _ ha hb]; omega
  have hn' : dec_n ((0x80 + x) <<< 8 ||| (16 * y + 14)) = 14 := by
    rw [decode_n _ _ ha hb]; omega
  simp only [Chip8.dispatch, op_8xyE, ho, hx', hn']
  norm_num

/-- The `Dxyn` arm under its in-bounds guard: flag cleared, the sprite
loop run, its final (display, V15) pair written back. -/
theorem dispatch_Dxyn (s : Chip8) (r x y n : Nat) (hx : x < 16) (hy : y < 16)
    (hn : n < 16) (hIn : s.I + n ≤ 4096) :
    Chip8.dispatch s ((0xD0 + x) <<< 8 ||| (16 * y + n)) r =
      some { s with display := (drawSprite s.memory s.I (s.V x) (s.V y) n (s.display, 0)).1, V := upd (upd s.V 15 0) 15 (drawSprite s.memory s.I (s.V x) (s.V y) n (s.display, 0)).2 } := by
  have ha : 0xD0 + x < 256 := by omega
  have hb : 16 * y + n < 256 := by omega
  have ho : dec_o ((0xD0 + x) <<< 8 ||| (16 * y + n)) = 13 := by
    rw [decode_o _ _ ha hb]; omega
  have hx' : dec_x ((0xD0 + x) <<< 8 ||| (16 * y + n)) = x := by
    rw [decode_x _ _ ha hb]; omega
  have hy' : dec_y ((0xD0 + x) <<< 8 ||| (16 * y + n)) = y := by
    rw [decode_y _ _ ha hb]; omega
  have hn' : dec_n ((0xD0 + x) <<< 8 ||| (16 * y + n)) = n := by
    rw [decode_n _ _ ha hb]; omega
  simp only [Chip8.dispatch, op_Dxyn, ho, hx', hy', hn']
  norm_num
  intro h1 h2
  exact absurd hIn (by omega)

/-- The `Fx0A` arm when no key is pressed: `pc` is rolled back by two
and nothing else changes. -/
theorem dispatch_Fx0A_none (s : Chip8) (r x : Nat) (hx : x < 16)
    (hfind : (List.range 16).find? s.keys = none) :
    Chip8.dispatch s ((0xF0 + x) <<< 8 ||| 0x0A) r =
      some { s with pc := s.pc - 2 } := by
  have ha : 0xF0 + x < 256 := by omega
  have hb : (0x0A : Nat) < 256 := by omega
  have ho : dec_o ((0xF0 + x) <<< 8 ||| 0x0A) = 15 := by
    rw [decode_o _ _ ha hb]; omega
  have hx' : dec_x ((0xF0 + x) <<< 8 ||| 0x0A) = x := by
    rw [decode_x _ _ ha hb]; omega
  have hkk' : dec_kk ((0xF0 + x) <<< 8 ||| 0x0A) = 0x0A := decode_kk _ _ ha hb
  simp only [Chip8.dispatch, op_Fx0A, ho, hx', hkk', hfind]
  norm_num

/-- The `Fx0A` arm when the first pressed key is `i`: `Vx := i` and the
rolled-back `pc` is re-advanced. -/
theorem dispatch_Fx0A_some (s : Chip8) (r x i : Nat) (hx : x < 16)
    (hfind : (List.range 16).find? s.keys = some i) :
    Chip8.dispatch s ((0xF0 + x) <<< 8 ||| 0x0A) r =
      some { s with V := upd s.V x i, pc := (s.pc - 2 + 2) % 65536 } := by
  have ha : 0xF0 + x < 256 := by omega
  have hb : (0x0A : Nat) < 256 := by omega
  have ho : dec_o ((0xF0 + x) <<< 8 ||| 0x0A) = 15 := by
    rw [decode_o _ _ ha hb]; omega
  have hx' : dec_x ((0xF0 + x) <<< 8 ||| 0x0A) = x := by
    rw [decode_x _ _ ha hb]; omega
  have hkk' : dec_kk ((0xF0 + x) <<< 8 ||| 0x0A) = 0x0A := decode_kk _ _ ha hb
  simp only [Chip8.dispatch, op_Fx0A, ho, hx', hkk', hfind]
  norm_num

theorem and_1 (m : Nat) : m &&& 1 = m % 2 := by
  rw [show (1 : Nat) = 2 ^ 1 - 1 by norm_num, Nat.and_pow_two_sub_one_eq_mod]

theorem shr_1 (m : Nat) : m >>> 1 = m / 2 := by
  rw [Nat.shiftRight_eq_div_pow]

theorem shr_7 (m : Nat) : m >>> 7 = m / 128 := by
  rw [Nat.shiftRight_eq_div_pow]

theorem shl_1 (m : Nat) : m <<< 1 = m * 2 := by
  rw [Nat.shiftLeft_eq]

/-! Claim C2: the `8xy4` add-with-carry. -/

/-- C2 (amended: `x ≠ 15`): executing `8xy4` computes the 16-bit sum of
`Vx` and `Vy`, sets the flag register `V15` to 1 exactly when the sum
exceeds 255 and to 0 otherwise, and stores the low 8 bits of the sum in
`Vx`. (When `x = 15` the low-byte store lands in `V15` itself and
overwrites the just-written flag.) -/
theorem C2_add_with_carry (s : Chip8) (r x y : Nat) (hx : x < 16) (hx15 : x ≠ 15)
    (hy : y < 16) (htmp : s.tmp = false) (hpc : s.pc + 1 < 4096)
    (hhi : s.memory s.pc = 0x80 + x) (hlo : s.memory (s.pc + 1) = 16 * y + 4) :
    ∃ s', Chip8.cycle s r = some s' ∧
      s'.V 15 = (if s.V x + s.V y > 255 then 1 else 0) ∧
      s'.V x = (s.V x + s.V y) % 256 := by
  rw [cycle_eq_dispatch s r htmp hpc, hhi, hlo, dispatch_8xy4 _ r x y hx hy]
  have h15x : (15 : Nat) ≠ x := Ne.symm hx15
  refine ⟨_, rfl, ?_, ?_⟩
  · simp [upd, h15x]
  · simp [upd, and_255]

/-- C2 counterexample: with `x = 15` (opcode `8F04`, `V15 = 200`,
`V0 = 100`) the sum 300 exceeds 255, so the claim as stated demands a
final flag of 1, but the machine leaves `V15 = 44`, the low byte of the
sum. -/
theorem C2_add_with_carry_cx :
    (Chip8.cycle (progAt 0x8F 0x04 (upd (upd zeroState.V 15 200) 0 100)) 0).map
        (fun t => t.V 15) = some 44 ∧
      (upd (upd zeroState.V 15 200) 0 100) 15 + (upd (upd zeroState.V 15 200) 0 100) 0 > 255 ∧
      (44 : Nat) ≠ 1 := by
  decide

/-- C2 witness: opcode `8014` with `V0 = 200`, `V1 = 100`. -/
theorem C2_add_with_carry_w :
    ∃ s', Chip8.cycle (progAt 0x80 0x14 (upd (upd zeroState.V 0 200) 1 100)) 0 = some s' ∧
      s'.V 15 = 1 ∧ s'.V 0 = 44 := by
  obtain ⟨s', h1, h2, h3⟩ :=
    C2_add_with_carry (progAt 0x80 0x14 (upd (upd zeroState.V 0 200) 1 100)) 0 0 1
      (by decide) (by decide) (by decide) (by decide) (by decide) (by decide) (by decide)
  refine ⟨s', h1, ?_, ?_⟩
  · rw [h2]; decide
  · rw [h3]; decide

/-! Claim C3: the `8xy6` / `8xyE` shifts. -/

/-- C3 (amended): for `x ≠ 15`, `8xy6` sets the flag to the prior
`Vx`'s least-significant bit and `Vx` to the prior value shifted right
once, and `8xyE` sets the flag to the prior `Vx`'s most-significant bit
and `Vx` to the low 8 bits of the prior value shifted left once.  For
`x = 15` the flag write happens first and the shift then operates on
the just-written flag, so `V15` ends as `0` after `8xy6` and as
`(V15 / 128 * 2) % 256` after `8xyE`, not as the shifted prior value
the claim demands. -/
theorem C3_shift_flag_order :
    (∀ s r x y, x < 16 → x ≠ 15 → y < 16 → s.tmp = false → s.pc + 1 < 4096 →
      s.memory s.pc = 0x80 + x → s.memory (s.pc + 1) = 16 * y + 6 →
      ∃ s', Chip8.cycle s r = some s' ∧ s'.V 15 = s.V x % 2 ∧ s'.V x = s.V x / 2) ∧
    (∀ s r x y, x < 16 → x ≠ 15 → y < 16 → s.V x < 256 → s.tmp = false →
      s.pc + 1 < 4096 →
      s.memory s.pc = 0x80 + x → s.memory (s.pc + 1) = 16 * y + 14 →
      ∃ s', Chip8.cycle s r = some s' ∧ s'.V 15 = s.V x / 128 ∧
        s'.V x = s.V x * 2 % 256) ∧
    (∀ s r y, y < 16 → s.tmp = false → s.pc + 1 < 4096 →
      s.memory s.pc = 0x8F → s.memory (s.pc + 1) = 16 * y + 6 →
      ∃ s', Chip8.cycle s r = some s' ∧ s'.V 15 = 0) ∧
    (∀ s r y, y < 16 → s.tmp = false → s.pc + 1 < 4096 →
      s.memory s.pc = 0x8F → s.memory (s.pc + 1) = 16 * y + 14 →
      ∃ s', Chip8.cycle s r = some s' ∧ s'.V 15 = s.V 15 / 128 * 2 % 256) := by
  refine ⟨?_, ?_, ?_, ?_⟩
  · intro s r x y hx hx15 hy htmp hpc hhi hlo
    rw [cycle_eq_dispatch s r htmp hpc, hhi, hlo, dispatch_8xy6 _ r x y hx hy]
    have h15x : (15 : Nat) ≠ x := Ne.symm hx15
    refine ⟨_, rfl, ?_, ?_⟩
    · simp [upd, h15x, and_1]
    · simp [upd, hx15, shr_1]
  · intro s r x y hx hx15 hy hvx htmp hpc hhi hlo
    rw [cycle_eq_dispatch s r htmp hpc, hhi, hlo, dispatch_8xyE _ r x y hx hy]
    have h15x : (15 : Nat) ≠ x := Ne.symm hx15
    refine ⟨_, rfl, ?_, ?_⟩
    · simp [upd, h15x, shr_7]
    · simp [upd, hx15, shl_1]
  · intro s r y hy htmp hpc hhi hlo
    have hhi' : s.memory s.pc = 0x80 + 15 := by rw [hhi]
    rw [cycle_eq_dispatch s r htmp hpc, hhi', hlo,
      dispatch_8xy6 _ r 15 y (by norm_num) hy]
    refine ⟨_, rfl, ?_⟩
    simp [upd, and_1, shr_1]
  · intro s r y hy htmp hpc hhi hlo
    have hhi' : s.memory s.pc = 0x80 + 15 := by rw [hhi]
    rw [cycle_eq_dispatch s r htmp hpc, hhi', hlo,
      dispatch_8xyE _ r 15 y (by norm_num) hy]
    refine ⟨_, rfl, ?_⟩
    simp [upd, shr_7, shl_1]

/-- C3 counterexample: opcode `8F06` with `V15 = 3`.  The prior
least-significant bit is 1 and the prior value shifted right is 1, so
the claim demands `V15 = 1` afterwards, but the machine leaves
`V15 = 0`: the shift consumed the freshly written flag. -/
theorem C3_shift_flag_order_cx :
    (Chip8.cycle (progAt 0x8F 0x06 (upd zeroState.V 15 3)) 0).map
        (fun t => t.V 15) = some 0 ∧
      upd zeroState.V 15 3 15 % 2 = 1 ∧ upd zeroState.V 15 3 15 / 2 = 1 := by
  decide

/-- C3 witness: the four parts at opcodes `8006`, `800E`, `8F06`,
`8F0E` on concrete register files. -/
theorem C3_shift_flag_order_w :
    (∃ s', Chip8.cycle (progAt 0x80 0x06 (upd zeroState.V 0 3)) 0 = some s' ∧
      s'.V 15 = 1 ∧ s'.V 0 = 1) ∧
    (∃ s', Chip8.cycle (progAt 0x80 0x0E (upd zeroState.V 0 129)) 0 = some s' ∧
      s'.V 15 = 1 ∧ s'.V 0 = 2) ∧
    (∃ s', Chip8.cycle (progAt 0x8F 0x06 (upd zeroState.V 15 6)) 0 = some s' ∧
      s'.V 15 = 0) ∧
    (∃ s', Chip8.cycle (progAt 0x8F 0x0E (upd zeroState.V 15 129)) 0 = some s' ∧
      s'.V 15 = 2) := by
  obtain ⟨p1, p2, p3, p4⟩ := C3_shift_flag_order
  refine ⟨?_, ?_, ?_, ?_⟩
  · obtain ⟨s', h1, h2, h3⟩ := p1 (progAt 0x80 0x06 (upd zeroState.V 0 3)) 0 0 0
      (by decide) (by decide) (by decide) (by decide) (by decide) (by decide) (by decide)
    exact ⟨s', h1, by rw [h2]; decide, by rw [h3]; decide⟩
  · obtain ⟨s', h1, h2, h3⟩ := p2 (progAt 0x80 0x0E (upd zeroState.V 0 129)) 0 0 0
      (by decide) (by decide) (by decide) (by decide) (by decide) (by decide) (by decide)
      (by decide)
    exact ⟨s', h1, by rw [h2]; decide, by rw [h3]; decide⟩
  · obtain ⟨s', h1, h2⟩ := p3 (progAt 0x8F 0x06 (upd zeroState.V 15 6)) 0 0
      (by decide) (by decide) (by decide) (by decide) (by decide)
    exact ⟨s', h1, h2⟩
  · obtain ⟨s', h1, h2⟩ := p4 (progAt 0x8F 0x0E (upd zeroState.V 15 129)) 0 0
      (by decide) (by decide) (by decide) (by decide) (by decide)
    exact ⟨s', h1, by rw [h2]; decide⟩

/-! Claim C4: wrapping arithmetic and carry/borrow flags. -/

/-- C4 (amended: `x ≠ 15`, and `y ≠ 15` for the subtractions): `7xkk`,
`8xy4`, `8xy5` and `8xy7` compute their results modulo 256; `8xy4`
carries exactly when the 16-bit sum exceeds 255; `8xy5` sets the flag
to 1 iff `Vx ≥ Vy` and `8xy7` to 1 iff `Vy ≥ Vx`; `7xkk` leaves the
flag untouched.  The case `x = y` is covered by the same quantifiers.
(When `x = 15` the result write aliases the flag — for `7xkk` it
modifies it — and when `y = 15` the subtractions read the just-written
flag as their second operand.) -/
theorem C4_arith_wrap_flags :
    (∀ s r x kk, x < 16 → x ≠ 15 → kk < 256 → s.tmp = false → s.pc + 1 < 4096 →
      s.memory s.pc = 0x70 + x → s.memory (s.pc + 1) = kk →
      ∃ s', Chip8.cycle s r = some s' ∧ s'.V x = (s.V x + kk) % 256 ∧
        s'.V 15 = s.V 15) ∧
    (∀ s r x y, x < 16 → x ≠ 15 → y < 16 → s.tmp = false → s.pc + 1 < 4096 →
      s.memory s.pc = 0x80 + x → s.memory (s.pc + 1) = 16 * y + 4 →
      ∃ s', Chip8.cycle s r = some s' ∧ s'.V x = (s.V x + s.V y) % 256 ∧
        s'.V 15 = (if s.V x + s.V y > 255 then 1 else 0)) ∧
    (∀ s r x y, x < 16 → x ≠ 15 → y < 16 → y ≠ 15 → s.tmp = false →
      s.pc + 1 < 4096 →
      s.memory s.pc = 0x80 + x → s.memory (s.pc + 1) = 16 * y + 5 →
      ∃ s', Chip8.cycle s r = some s' ∧ s'.V x = sub8 (s.V x) (s.V y) ∧
        s'.V 15 = (if s.V x ≥ s.V y then 1 else 0)) ∧
    (∀ s r x y, x < 16 → x ≠ 15 → y < 16 → y ≠ 15 → s.tmp = false →
      s.pc + 1 < 4096 →
      s.memory s.pc = 0x80 + x → s.memory (s.pc + 1) = 16 * y + 7 →
      ∃ s', Chip8.cycle s r = some s' ∧ s'.V x = sub8 (s.V y) (s.V x) ∧
        s'.V 15 = (if s.V y ≥ s.V x then 1 else 0)) := by
  refine ⟨?_, ?_, ?_, ?_⟩
  · intro s r x kk hx hx15 hkk htmp hpc hhi hlo
    rw [cycle_eq_dispatch s r htmp hpc, hhi, hlo, dispatch_7xkk _ r x kk hx hkk]
    have h15x : (15 : Nat) ≠ x := Ne.symm hx15
    refine ⟨_, rfl, ?_, ?_⟩
    · simp [upd, add8]
    · simp [upd, h15x]
  · intro s r x y hx hx15 hy htmp hpc hhi hlo
    rw [cycle_eq_dispatch s r htmp hpc, hhi, hlo, dispatch_8xy4 _ r x y hx hy]
    have h15x : (15 : Nat) ≠ x := Ne.symm hx15
    refine ⟨_, rfl, ?_, ?_⟩
    · simp [upd, and_255]
    · simp [upd, h15x]
  · intro s r x y hx hx15 hy hy15 htmp hpc hhi hlo
    rw [cycle_eq_dispatch s r htmp hpc, hhi, hlo, dispatch_8xy5 _ r x y hx hy]
    have h15x : (15 : Nat) ≠ x := Ne.symm hx15
    refine ⟨_, rfl, ?_, ?_⟩
    · simp [upd, hx15, hy15]
    · simp [upd, h15x]
  · intro s r x y hx hx15 hy hy15 htmp hpc hhi hlo
    rw [cycle_eq_dispatch s r htmp hpc, hhi, hlo, dispatch_8xy7 _ r x y hx hy]
    have h15x : (15 : Nat) ≠ x := Ne.symm hx15
    refine ⟨_, rfl, ?_, ?_⟩
    · simp [upd, hx15, hy15]
    · simp [upd, h15x]

/-- C4 counterexample: opcode `7F01` (add immediate 1 to `V15`) with
`V15 = 0` leaves `V15 = 1`: the claim that `7xkk` never touches the
flag register fails when `x = 15`. -/
theorem C4_arith_wrap_flags_cx :
    (Chip8.cycle (progAt 0x7F 0x01 zeroState.V) 0).map (fun t => t.V 15) = some 1 ∧
      (progAt 0x7F 0x01 zeroState.V).V 15 = 0 := by
  decide

/-- C4 witness: the four parts at opcodes `7005`, `8014`, `8015`,
`8017` on concrete register files. -/
theorem C4_arith_wrap_flags_w :
    (∃ s', Chip8.cycle (progAt 0x70 0x05 (upd zeroState.V 0 254)) 0 = some s' ∧
      s'.V 0 = 3 ∧ s'.V 15 = 0) ∧
    (∃ s', Chip8.cycle (progAt 0x80 0x14 (upd (upd zeroState.V 0 7) 1 9)) 0 = some s' ∧
      s'.V 0 = 16 ∧ s'.V 15 = 0) ∧
    (∃ s', Chip8.cycle (progAt 0x80 0x15 (upd (upd zeroState.V 0 5) 1 7)) 0 = some s' ∧
      s'.V 0 = 254 ∧ s'.V 15 = 0) ∧
    (∃ s', Chip8.cycle (progAt 0x80 0x17 (upd (upd zeroState.V 0 5) 1 7)) 0 = some s' ∧
      s'.V 0 = 2 ∧ s'.V 15 = 1) := by
  obtain ⟨p1, p2, p3, p4⟩ := C4_arith_wrap_flags
  refine ⟨?_, ?_, ?_, ?_⟩
  · obtain ⟨s', h1, h2, h3⟩ := p1 (progAt 0x70 0x05 (upd zeroState.V 0 254)) 0 0 5
      (by decide) (by decide) (by decide) (by decide) (by decide) (by decide) (by decide)
    exact ⟨s', h1, by rw [h2]; decide, by rw [h3]; decide⟩
  · obtain ⟨s', h1, h2, h3⟩ := p2 (progAt 0x80 0x14 (upd (upd zeroState.V 0 7) 1 9)) 0 0 1
      (by decide) (by decide) (by decide) (by decide) (by decide) (by decide) (by decide)
    exact ⟨s', h1, by rw [h2]; decide, by rw [h3]; decide⟩
  · obtain ⟨s', h1, h2, h3⟩ := p3 (progAt 0x80 0x15 (upd (upd zeroState.V 0 5) 1 7)) 0 0 1
      (by decide) (by decide) (by decide) (by decide) (by decide) (by decide) (by decide)
      (by decide)
    exact ⟨s', h1, by rw [h2]; decide, by rw [h3]; decide⟩
  · obtain ⟨s', h1, h2, h3⟩ := p4 (progAt 0x80 0x17 (upd (upd zeroState.V 0 5) 1 7)) 0 0 1
      (by decide) (by decide) (by decide) (by decide) (by decide) (by decide) (by decide)
      (by decide)
    exact ⟨s', h1, by rw [h2]; decide, by rw [h3]; decide⟩

/-- A `find?` over `List.range n` returns the least index satisfying
the test. -/
theorem find_first (p : Nat → Bool) (n m : Nat) (hm : m < n) (hp : p m = true)
    (hlow : ∀ i, i < m → p i = false) : (List.range n).find? p = some m := by
  induction n with
  | zero => omega
  | succ n ih =>
    rw [List.range_succ, List.find?_append]
    rcases Nat.lt_or_ge m n with h | h
    · rw [ih h]
      rfl
    · have hmn : m = n := by omega
      subst hmn
      have hnone : (List.range m).find? p = none := by
        rw [List.find?_eq_none]
        intro i hi
        simp [hlow i (List.mem_range.mp hi)]
      rw [hnone, List.find?_cons_of_pos _ hp]
      rfl

/-! Claim C5: the `Fx0A` key wait. -/

/-- C5: executing `Fx0A` with no key flag set leaves the machine state
completely unchanged (so repeated cycles re-execute the same
instruction); with at least one key set, `Vx` receives the
lowest-indexed pressed key and `pc` rests two past the instruction. -/
theorem C5_wait_key (s : Chip8) (r x : Nat) (hx : x < 16) (htmp : s.tmp = false)
    (hpc : s.pc + 1 < 4096) (hhi : s.memory s.pc = 0xF0 + x)
    (hlo : s.memory (s.pc + 1) = 0x0A) :
    ((∀ i, i < 16 → s.keys i = false) → Chip8.cycle s r = some s) ∧
    (∀ m, m < 16 → s.keys m = true → (∀ i, i < m → s.keys i = false) →
      Chip8.cycle s r = some { s with V := upd s.V x m, pc := s.pc + 2 }) := by
  constructor
  · intro hk
    have hfind : (List.range 16).find? s.keys = none := by
      rw [List.find?_eq_none]
      intro i hi
      simp [hk i (List.mem_range.mp hi)]
    rw [cycle_eq_dispatch s r htmp hpc, hhi, hlo,
      dispatch_Fx0A_none { s with pc := s.pc + 2 } r x hx hfind]
    simp only [Nat.add_sub_cancel]
  · intro m hm hkm hlow
    have hfind : (List.range 16).find? s.keys = some m :=
      find_first s.keys 16 m hm hkm hlow
    rw [cycle_eq_dispatch s r htmp hpc, hhi, hlo,
      dispatch_Fx0A_some { s with pc := s.pc + 2 } r x m hx hfind]
    have e : (s.pc + 2) % 65536 = s.pc + 2 := Nat.mod_eq_of_lt (by omega)
    simp only [Nat.add_sub_cancel, e]

/-- C5 witness: opcode `F00A` with no key pressed, then with keys 3 and
7 pressed (the lower index 3 wins). -/
theorem C5_wait_key_w :
    Chip8.cycle (progAt 0xF0 0x0A zeroState.V) 0 = some (progAt 0xF0 0x0A zeroState.V) ∧
    Chip8.cycle { progAt 0xF0 0x0A zeroState.V with keys := upd (upd zeroState.keys 3 true) 7 true } 0 =
      some { { progAt 0xF0 0x0A zeroState.V with keys := upd (upd zeroState.keys 3 true) 7 true } with V := upd (progAt 0xF0 0x0A zeroState.V).V 0 3, pc := (progAt 0xF0 0x0A zeroState.V).pc + 2 } := by
  constructor
  · exact (C5_wait_key (progAt 0xF0 0x0A zeroState.V) 0 0 (by decide) (by decide)
      (by decide) (by decide) (by decide)).1 (by decide)
  · exact (C5_wait_key _ 0 0 (by decide) (by decide) (by decide) (by decide)
      (by decide)).2 3 (by decide) (by decide) (by decide)

/-! Claim C6: the loader size check. -/

/-- C6: loading a 3583-byte image succeeds, copies the bytes to
`0x200..` (the rest of memory untouched) and sets `pc := 0x200`;
loading an image of 3584 bytes or more fails with `ROMIsTooBig`
carrying the size, mutating nothing. -/
theorem C6_load_size (s : Chip8) (rom : List Nat) :
    (rom.length = 3583 →
      Chip8.load s rom = .ok { s with memory := fun a => if 0x200 ≤ a ∧ a < 0x200 + rom.length then rom.getD (a - 0x200) 0 else s.memory a, pc := 0x200 }) ∧
    (rom.length ≥ 3584 → Chip8.load s rom = .error (.ROMIsTooBig rom.length)) := by
  constructor
  · intro h
    rw [Chip8.load, if_neg (by omega)]
  · intro h
    rw [Chip8.load, if_pos (by omega)]

/-- C6 witness: a 3583-byte image loads (with the copied memory and
`pc = 0x200`), a 3584-byte image is rejected with its size. -/
theorem C6_load_size_w :
    Chip8.load zeroState (List.replicate 3583 7) =
      .ok { zeroState with memory := fun a => if 0x200 ≤ a ∧ a < 0x200 + (List.replicate 3583 7).length then (List.replicate 3583 7).getD (a - 0x200) 0 else zeroState.memory a, pc := 0x200 } ∧
    Chip8.load zeroState (List.replicate 3584 7) = .error (.ROMIsTooBig 3584) := by
  constructor
  · exact (C6_load_size zeroState _).1 (by rw [List.length_replicate])
  · have h := (C6_load_size zeroState (List.replicate 3584 7)).2
      (by rw [List.length_replicate])
    rw [List.length_replicate] at h
    exact h

/-! Claim C7: unchecked call-stack operations. -/

/-- C7 (the code at the claimed failing inputs): executing `00EE` with
the stack pointer at its initial value 0 is not reported as an error —
the machine silently reads `stack[0]` into `pc` and wraps `sp` to 255;
executing `2nnn` with `sp = 15` runs the stack write out of bounds,
which is a panic (`none`), not a reportable machine error. -/
theorem C7_unchecked_stack :
    (Chip8.cycle { progAt 0x00 0xEE zeroState.V with stack := upd zeroState.stack 0 0x123 } 0).map
        (fun t => (t.pc, t.sp)) = some (0x123, 255) ∧
    Chip8.cycle { progAt 0x22 0x22 zeroState.V with sp := 15 } 0 = none := by
  constructor
  · decide
  · rfl

/-! Claim C8: the random byte generator. -/

/-- C8 (the code at the claimed failing input): the sampler support is
the half-open range `[0, 0xFF)` — 254 is attainable but 255 is not, so
the generator is not uniform over `[0, 255]`; the `Cxkk` arm itself
does store `sample &&& kk` into `Vx` (here `254 &&& 0xFF = 254`). -/
theorem C8_rand_range :
    rand_dist_mem 254 = true ∧ rand_dist_mem 255 = false ∧
    (Chip8.cycle (progAt 0xC0 0xFF zeroState.V) 254).map (fun t => t.V 0) = some 254 := by
  decide

/-! Claim C10: the timer tick. -/

/-- C10: one `timer` call decrements each of the delay and sound
timers when positive, leaves a zero timer at zero, and changes no
other component of the state. -/
theorem C10_timer_tick (s : Chip8) :
    ((0 < s.DT → (Chip8.timer s).DT = s.DT - 1) ∧
      (s.DT = 0 → (Chip8.timer s).DT = 0)) ∧
    ((0 < s.ST → (Chip8.timer s).ST = s.ST - 1) ∧
      (s.ST = 0 → (Chip8.timer s).ST = 0)) ∧
    (Chip8.timer s).memory = s.memory ∧ (Chip8.timer s).V = s.V ∧
    (Chip8.timer s).stack = s.stack ∧ (Chip8.timer s).display = s.display ∧
    (Chip8.timer s).keys = s.keys ∧ (Chip8.timer s).I = s.I ∧
    (Chip8.timer s).pc = s.pc ∧ (Chip8.timer s).sp = s.sp ∧
    (Chip8.timer s).tmp = s.tmp := by
  refine ⟨⟨?_, ?_⟩, ⟨?_, ?_⟩, rfl, rfl, rfl, rfl, rfl, rfl, rfl, rfl, rfl⟩ <;>
    intro h <;> simp [Chip8.timer, h]

/-- C10 witness: a tick at `DT = 5`, `ST = 0`. -/
theorem C10_timer_tick_w :
    (Chip8.timer { zeroState with DT := 5 }).DT = 4 ∧
    (Chip8.timer { zeroState with DT := 5 }).ST = 0 ∧
    (Chip8.timer { zeroState with DT := 5 }).pc = 0x200 := by
  have h := C10_timer_tick { zeroState with DT := 5 }
  refine ⟨?_, ?_, ?_⟩
  · have := h.1.1 (by decide)
    simpa using this
  · exact h.2.1.2 rfl
  · have := h.2.2.2.2.2.2.2.2.1
    simpa using this

/-- The divergent interpreter copy raises the carry for the sum
`0x11`, which does not exceed 255 — its threshold is `sum > 0x10`
where the canonical copy tests `sum > 0xFF`. -/
theorem divergent_8xy4_bad_carry :
    (divergent_8xy4 0x11 0).2 = 1 ∧ 0x11 + 0 ≤ 255 ∧ (divergent_8xy4 0x11 0).1 = 0x11 := by
  decide

/-! Claim C9: the `tmp` guard is dead in every reachable state. -/

theorem op_00E0_tmp {s s' : Chip8} (h : op_00E0 s = some s') :
    s'.tmp = s.tmp := by
  simp only [op_00E0] at h
  repeat' split at h
  all_goals first
    | (cases h; rfl)
    | cases h

theorem op_00EE_tmp {s s' : Chip8} (h : op_00EE s = some s') :
    s'.tmp = s.tmp := by
  simp only [op_00EE] at h
  repeat' split at h
  all_goals first
    | (cases h; rfl)
    | cases h

theorem op_1nnn_tmp {s s' : Chip8} {nnn : Nat} (h : op_1nnn s nnn = some s') :
    s'.tmp = s.tmp := by
  simp only [op_1nnn] at h
  repeat' split at h
  all_goals first
    | (cases h; rfl)
    | cases h

theorem op_2nnn_tmp {s s' : Chip8} {nnn : Nat} (h : op_2nnn s nnn = some s') :
    s'.tmp = s.tmp := by
  simp only [op_2nnn] at h
  repeat' split at h
  all_goals first
    | (cases h; rfl)
    | cases h

theorem op_3xkk_tmp {s s' : Chip8} {x kk : Nat} (h : op_3xkk s x kk = some s') :
    s'.tmp = s.tmp := by
  simp only [op_3xkk] at h
  repeat' split at h
  all_goals first
    | (cases h; rfl)
    | cases h

theorem op_4xkk_tmp {s s' : Chip8} {x kk : Nat} (h : op_4xkk s x kk = some s') :
    s'.tmp = s.tmp := by
  simp only [op_4xkk] at h
  repeat' split at h
  all_goals first
    | (cases h; rfl)
    | cases h

theorem op_5xy0_tmp {s s' : Chip8} {x y : Nat} (h : op_5xy0 s x y = some s') :
    s'.tmp = s.tmp := by
  simp only [op_5xy0] at h
  repeat' split at h
  all_goals first
    | (cases h; rfl)
    | cases h

theorem op_6xkk_tmp {s s' : Chip8} {x kk : Nat} (h : op_6xkk s x kk = some s') :
    s'.tmp = s.tmp := by
  simp only [op_6xkk] at h
  repeat' split at h
  all_goals first
    | (cases h; rfl)
    | cases h

theorem op_7xkk_tmp {s s' : Chip8} {x kk : Nat} (h : op_7xkk s x kk = some s') :
    s'.tmp = s.tmp := by
  simp only [op_7xkk] at h
  repeat' split at h
  all_goals first
    | (cases h; rfl)
    | cases h

theorem op_8xy0_tmp {s s' : Chip8} {x y : Nat} (h : op_8xy0 s x y = some s') :
    s'.tmp = s.tmp := by
  simp only [op_8xy0] at h
  repeat' split at h
  all_goals first
    | (cases h; rfl)
    | cases h

theorem op_8xy1_tmp {s s' : Chip8} {x y : Nat} (h : op_8xy1 s x y = some s') :
    s'.tmp = s.tmp := by
  simp only [op_8xy1] at h
  repeat' split at h
  all_goals first
    | (cases h; rfl)
    | cases h

theorem op_8xy2_tmp {s s' : Chip8} {x y : Nat} (h : op_8xy2 s x y = some s') :
    s'.tmp = s.tmp := by
  simp only [op_8xy2] at h
  repeat' split at h
  all_goals first
    | (cases h; rfl)
    | cases h

theorem op_8xy3_tmp {s s' : Chip8} {x y : Nat} (h : op_8xy3 s x y = some s') :
    s'.tmp = s.tmp := by
  simp only [op_8xy3] at h
  repeat' split at h
  all_goals first
    | (cases h; rfl)
    | cases h

theorem op_8xy4_tmp {s s' : Chip8} {x y : Nat} (h : op_8xy4 s x y = some s') :
    s'.tmp = s.tmp := by
  simp only [op_8xy4] at h
  repeat' split at h
  all_goals first
    | (cases h; rfl)
    | cases h

theorem op_8xy5_tmp {s s' : Chip8} {x y : Nat} (h : op_8xy5 s x y = some s') :
    s'.tmp = s.tmp := by
  simp only [op_8xy5] at h
  repeat' split at h
  all_goals first
    | (cases h; rfl)
    | cases h

theorem op_8xy6_tmp {s s' : Chip8} {x y : Nat} (h : op_8xy6 s x y = some s') :
    s'.tmp = s.tmp := by
  simp only [op_8xy6] at h
  repeat' split at h
  all_goals first
    | (cases h; rfl)
    | cases h

theorem op_8xy7_tmp {s s' : Chip8} {x y : Nat} (h : op_8xy7 s x y = some s') :
    s'.tmp = s.tmp := by
  simp only [op_8xy7] at h
  repeat' split at h
  all_goals first
    | (cases h; rfl)
    | cases h

theorem op_8xyE_tmp {s s' : Chip8} {x y : Nat} (h : op_8xyE s x y = some s') :
    s'.tmp = s.tmp := by
  simp only [op_8xyE] at h
  repeat' split at h
  all_goals first
    | (cases h; rfl)
    | cases h

theorem op_9xy0_tmp {s s' : Chip8} {x y : Nat} (h : op_9xy0 s x y = some s') :
    s'.tmp = s.tmp := by
  simp only [op_9xy0] at h
  repeat' split at h
  all_goals first
    | (cases h; rfl)
    | cases h

theorem op_Annn_tmp {s s' : Chip8} {nnn : Nat} (h : op_Annn s nnn = some s') :
    s'.tmp = s.tmp := by
  simp only [op_Annn] at h
  repeat' split at h
  all_goals first
    | (cases h; rfl)
    | cases h

theorem op_Bnnn_tmp {s s' : Chip8} {nnn : Nat} (h : op_Bnnn s nnn = some s') :
    s'.tmp = s.tmp := by
  simp only [op_Bnnn] at h
  repeat' split at h
  all_goals first
    | (cases h; rfl)
    | cases h

theorem op_Cxkk_tmp {s s' : Chip8} {x kk r : Nat} (h : op_Cxkk s x kk r = some s') :
    s'.tmp = s.tmp := by
  simp only [op_Cxkk] at h
  repeat' split at h
  all_goals first
    | (cases h; rfl)
    | cases h

theorem op_Dxyn_tmp {s s' : Chip8} {x y n : Nat} (h : op_Dxyn s x y n = some s') :
    s'.tmp = s.tmp := by
  simp only [op_Dxyn] at h
  repeat' split at h
  all_goals first
    | (cases h; rfl)
    | cases h

theorem op_Ex9E_tmp {s s' : Chip8} {x : Nat} (h : op_Ex9E s x = some s') :
    s'.tmp = s.tmp := by
  simp only [op_Ex9E] at h
  repeat' split at h
  all_goals first
    | (cases h; rfl)
    | cases h

theorem op_ExA1_tmp {s s' : Chip8} {x : Nat} (h : op_ExA1 s x = some s') :
    s'.tmp = s.tmp := by
  simp only [op_ExA1] at h
  repeat' split at h
  all_goals first
    | (cases h; rfl)
    | cases h

theorem op_Fx07_tmp {s s' : Chip8} {x : Nat} (h : op_Fx07 s x = some s') :
    s'.tmp = s.tmp := by
  simp only [op_Fx07] at h
  repeat' split at h
  all_goals first
    | (cases h; rfl)
    | cases h

theorem op_Fx0A_tmp {s s' : Chip8} {x : Nat} (h : op_Fx0A s x = some s') :
    s'.tmp = s.tmp := by
  simp only [op_Fx0A] at h
  repeat' split at h
  all_goals first
    | (cases h; rfl)
    | cases h

theorem op_Fx15_tmp {s s' : Chip8} {x : Nat} (h : op_Fx15 s x = some s') :
    s'.tmp = s.tmp := by
  simp only [op_Fx15] at h
  repeat' split at h
  all_goals first
    | (cases h; rfl)
    | cases h

theorem op_Fx18_tmp {s s' : Chip8} {x : Nat} (h : op_Fx18 s x = some s') :
    s'.tmp = s.tmp := by
  simp only [op_Fx18] at h
  repeat' split at h
  all_goals first
    | (cases h; rfl)
    | cases h

theorem op_Fx1E_tmp {s s' : Chip8} {x : Nat} (h : op_Fx1E s x = some s') :
    s'.tmp = s.tmp := by
  simp only [op_Fx1E] at h
  repeat' split at h
  all_goals first
    | (cases h; rfl)
    | cases h

theorem op_Fx29_tmp {s s' : Chip8} {x : Nat} (h : op_Fx29 s x = some s') :
    s'.tmp = s.tmp := by
  simp only [op_Fx29] at h
  repeat' split at h
  all_goals first
    | (cases h; rfl)
    | cases h

theorem op_Fx33_tmp {s s' : Chip8} {x : Nat} (h : op_Fx33 s x = some s') :
    s'.tmp = s.tmp := by
  simp only [op_Fx33] at h
  repeat' split at h
  all_goals first
    | (cases h; rfl)
    | cases h

theorem op_Fx55_tmp {s s' : Chip8} {x : Nat} (h : op_Fx55 s x = some s') :
    s'.tmp = s.tmp := by
  simp only [op_Fx55] at h
  repeat' split at h
  all_goals first
    | (cases h; rfl)
    | cases h

theorem op_Fx65_tmp {s s' : Chip8} {x : Nat} (h : op_Fx65 s x = some s') :
    s'.tmp = s.tmp := by
  simp only [op_Fx65] at h
  repeat' split at h
  all_goals first
    | (cases h; rfl)
    | cases h

/-- A successful `dispatch` never changes the `tmp` field. -/
theorem dispatch_tmp (s : Chip8) (op r : Nat) (s' : Chip8)
    (h : Chip8.dispatch s op r = some s') : s'.tmp = s.tmp := by
  delta Chip8.dispatch at h
  by_cases c0 : dec_o op = 0 ∧ dec_kk op = 0xE0
  · rw [if_pos c0] at h
    exact op_00E0_tmp h
  · rw [if_neg c0] at h
    by_cases c1 : dec_o op = 0 ∧ dec_kk op = 0xEE
    · rw [if_pos c1] at h
      exact op_00EE_tmp h
    · rw [if_neg c1] at h
      by_cases c2 : dec_o op = 1
      · rw [if_pos c2] at h
        exact op_1nnn_tmp h
      · rw [if_neg c2] at h
        by_cases c3 : dec_o op = 2
        · rw [if_pos c3] at h
          exact op_2nnn_tmp h
        · rw [if_neg c3] at h
          by_cases c4 : dec_o op = 3
          · rw [if_pos c4] at h
            exact op_3xkk_tmp h
          · rw [if_neg c4] at h
            by_cases c5 : dec_o op = 4
            · rw [if_pos c5] at h
              exact op_4xkk_tmp h
            · rw [if_neg c5] at h
              by_cases c6 : dec_o op = 5 ∧ dec_n op = 0
              · rw [if_pos c6] at h
                exact op_5xy0_tmp h
              · rw [if_neg c6] at h
                by_cases c7 : dec_o op = 6
                · rw [if_pos c7] at h
                  exact op_6xkk_tmp h
                · rw [if_neg c7] at h
                  by_cases c8 : dec_o op = 7
                  · rw [if_pos c8] at h
                    exact op_7xkk_tmp h
                  · rw [if_neg c8] at h
                    by_cases c9 : dec_o op = 8 ∧ dec_n op = 0
                    · rw [if_pos c9] at h
                      exact op_8xy0_tmp h
                    · rw [if_neg c9] at h
                      by_cases c10 : dec_o op = 8 ∧ dec_n op = 1
                      · rw [if_pos c10] at h
                        exact op_8xy1_tmp h
                      · rw [if_neg c10] at h
                        by_cases c11 : dec_o op = 8 ∧ dec_n op = 2
                        · rw [if_pos c11] at h
                          exact op_8xy2_tmp h
                        · rw [if_neg c11] at h
                          by_cases c12 : dec_o op = 8 ∧ dec_n op = 3
                          · rw [if_pos c12] at h
                            exact op_8xy3_tmp h
                          · rw [if_neg c12] at h
                            by_cases c13 : dec_o op = 8 ∧ dec_n op = 4
                            · rw [if_pos c13] at h
                              exact op_8xy4_tmp h
                            · rw [if_neg c13] at h
                              by_cases c14 : dec_o op = 8 ∧ dec_n op = 5
                              · rw [if_pos c14] at h
                                exact op_8xy5_tmp h
                              · rw [if_neg c14] at h
                                by_cases c15 : dec_o op = 8 ∧ dec_n op = 6
                                · rw [if_pos c15] at h
                                  exact op_8xy6_tmp h
                                · rw [if_neg c15] at h
                                  by_cases c16 : dec_o op = 8 ∧ dec_n op = 7
                                  · rw [if_pos c16] at h
                                    exact op_8xy7_tmp h
                                  · rw [if_neg c16] at h
                                    by_cases c17 : dec_o op = 8 ∧ dec_n op = 0xE
                                    · rw [if_pos c17] at h
                                      exact op_8xyE_tmp h
                                    · rw [if_neg c17] at h
                                      by_cases c18 : dec_o op = 9 ∧ dec_n op = 0
                                      · rw [if_pos c18] at h
                                        exact op_9xy0_tmp h
                                      · rw [if_neg c18] at h
                                        by_cases c19 : dec_o op = 0xA
                                        · rw [if_pos c19] at h
                                          exact op_Annn_tmp h
                                        · rw [if_neg c19] at h
                                          by_cases c20 : dec_o op = 0xB
                                          · rw [if_pos c20] at h
                                            exact op_Bnnn_tmp h
                                          · rw [if_neg c20] at h
                                            by_cases c21 : dec_o op = 0xC
                                            · rw [if_pos c21] at h
                                              exact op_Cxkk_tmp h
                                            · rw [if_neg c21] at h
                                              by_cases c22 : dec_o op = 0xD
                                              · rw [if_pos c22] at h
                                                exact op_Dxyn_tmp h
                                              · rw [if_neg c22] at h
                                                by_cases c23 : dec_o op = 0xE ∧ dec_kk op = 0x9E
                                                · rw [if_pos c23] at h
                                                  exact op_Ex9E_tmp h
                                                · rw [if_neg c23] at h
                                                  by_cases c24 : dec_o op = 0xE ∧ dec_kk op = 0xA1
                                                  · rw [if_pos c24] at h
                                                    exact op_ExA1_tmp h
                                                  · rw [if_neg c24] at h
                                                    by_cases c25 : dec_o op = 0xF ∧ dec_kk op = 0x07
                                                    · rw [if_pos c25] at h
                                                      exact op_Fx07_tmp h
                                                    · rw [if_neg c25] at h
                                                      by_cases c26 : dec_o op = 0xF ∧ dec_kk op = 0x0A
                                                      · rw [if_pos c26] at h
                                                        exact op_Fx0A_tmp h
                                                      · rw [if_neg c26] at h
                                                        by_cases c27 : dec_o op = 0xF ∧ dec_kk op = 0x15
                                                        · rw [if_pos c27] at h
                                                          exact op_Fx15_tmp h
                                                        · rw [if_neg c27] at h
                                                          by_cases c28 : dec_o op = 0xF ∧ dec_kk op = 0x18
                                                          · rw [if_pos c28] at h
                                                            exact op_Fx18_tmp h
                                                          · rw [if_neg c28] at h
                                                            by_cases c29 : dec_o op = 0xF ∧ dec_kk op = 0x1E
                                                            · rw [if_pos c29] at h
                                                              exact op_Fx1E_tmp h
                                                            · rw [if_neg c29] at h
                                                              by_cases c30 : dec_o op = 0xF ∧ dec_kk op = 0x29
                                                              · rw [if_pos c30] at h
                                                                exact op_Fx29_tmp h
                                                              · rw [if_neg c30] at h
                                                                by_cases c31 : dec_o op = 0xF ∧ dec_kk op = 0x33
                                                                · rw [if_pos c31] at h
                                                                  exact op_Fx33_tmp h
                                                                · rw [if_neg c31] at h
                                                                  by_cases c32 : dec_o op = 0xF ∧ dec_kk op = 0x55
                                                                  · rw [if_pos c32] at h
                                                                    exact op_Fx55_tmp h
                                                                  · rw [if_neg c32] at h
                                                                    by_cases c33 : dec_o op = 0xF ∧ dec_kk op = 0x65
                                                                    · rw [if_pos c33] at h
                                                                      exact op_Fx65_tmp h
                                                                    · rw [if_neg c33] at h
                                                                      cases h

/-- A successful `cycle` never changes the `tmp` field. -/
theorem cycle_tmp (s : Chip8) (r : Nat) (s' : Chip8)
    (h : Chip8.cycle s r = some s') : s'.tmp = s.tmp := by
  simp only [Chip8.cycle] at h
  split at h
  · cases h
    rfl
  · split at h
    · exact dispatch_tmp { s with pc := (s.pc + 2) % 65536 }
        ((s.memory s.pc) <<< 8 ||| s.memory ((s.pc + 1) % 65536)) r s' h
    · cases h

/-- A successful `load` never changes the `tmp` field. -/
theorem load_tmp (s : Chip8) (rom : List Nat) (s' : Chip8)
    (h : Chip8.load s rom = .ok s') : s'.tmp = s.tmp := by
  simp only [Chip8.load] at h
  split at h
  · cases h
  · cases h
    rfl

/-- With the `tmp` guard down, `cycle` always runs its
fetch-decode-dispatch body. -/
theorem cycle_no_guard (s : Chip8) (r : Nat) (h : s.tmp = false) :
    Chip8.cycle s r =
      (if s.pc < 4096 ∧ (s.pc + 1) % 65536 < 4096 then
        Chip8.dispatch { s with pc := (s.pc + 2) % 65536 }
          ((s.memory s.pc) <<< 8 ||| s.memory ((s.pc + 1) % 65536)) r
      else none) := by
  simp only [Chip8.cycle, h, Bool.false_eq_true, if_false]

/-- C9: in every state reachable from `Chip8::new` by loads, cycles,
timer ticks and external key writes, the internal `tmp` flag is still
`false`, so the early-return guard at the top of `cycle` is never taken
and every call runs the fetch-decode-dispatch body. -/
theorem C9_tmp_never_set (s : Chip8) (h : Reachable s) :
    s.tmp = false ∧ ∀ r, Chip8.cycle s r =
      (if s.pc < 4096 ∧ (s.pc + 1) % 65536 < 4096 then
        Chip8.dispatch { s with pc := (s.pc + 2) % 65536 }
          ((s.memory s.pc) <<< 8 ||| s.memory ((s.pc + 1) % 65536)) r
      else none) := by
  have htmp : s.tmp = false := by
    induction h with
    | init => rfl
    | load hs hl ih => rw [load_tmp _ _ _ hl]; exact ih
    | cycle hs hc ih => rw [cycle_tmp _ _ _ hc]; exact ih
    | timer hs ih => exact ih
    | setKeys k hs ih => exact ih
  exact ⟨htmp, fun r => cycle_no_guard s r htmp⟩

/-- C9 witness: the freshly constructed machine. -/
theorem C9_tmp_never_set_w :
    Chip8.new.tmp = false ∧ Chip8.cycle Chip8.new 0 =
      (if Chip8.new.pc < 4096 ∧ (Chip8.new.pc + 1) % 65536 < 4096 then
        Chip8.dispatch { Chip8.new with pc := (Chip8.new.pc + 2) % 65536 }
          ((Chip8.new.memory Chip8.new.pc) <<< 8 |||
            Chip8.new.memory ((Chip8.new.pc + 1) % 65536)) 0
      else none) := by
  obtain ⟨h1, h2⟩ := C9_tmp_never_set Chip8.new Reachable.init
  exact ⟨h1, h2 0⟩

/-! Claim C1: the `Dxyn` sprite blit. -/

theorem any_congr_mem {α : Type} (L : List α) (p q : α → Bool)
    (h : ∀ a ∈ L, p a = q a) : L.any p = L.any q := by
  induction L with
  | nil => rfl
  | cons a L ih =>
    rw [List.any_cons, List.any_cons, h a (List.mem_cons_self a L),
      ih (fun b hb => h b (List.mem_cons_of_mem a hb))]

/-- Characterisation of one row fold, done over any list of bit
positions whose target pixels are pairwise distinct: every listed
target is XOR-ed with its sprite bit, every other pixel is unchanged,
and the collision flag becomes 1 exactly when some listed bit lands on
an already-on pixel. -/
theorem drawRow_aux (x y i byte : Nat) (L : List Nat) (disp : Nat → Bool) (vf : Nat)
    (hd : L.Pairwise (fun a b => dIdx x y i (7 - a) ≠ dIdx x y i (7 - b))) :
    (∀ j ∈ L, (L.foldl (drawStep x y i byte) (disp, vf)).1 (dIdx x y i (7 - j)) =
      xor (disp (dIdx x y i (7 - j))) ((byte >>> j) &&& 1 != 0)) ∧
    (∀ p, (∀ j ∈ L, p ≠ dIdx x y i (7 - j)) →
      (L.foldl (drawStep x y i byte) (disp, vf)).1 p = disp p) ∧
    ((L.foldl (drawStep x y i byte) (disp, vf)).2 =
      if L.any (fun j => disp (dIdx x y i (7 - j)) && ((byte >>> j) &&& 1 != 0))
      then 1 else vf) := by
  induction L generalizing disp vf with
  | nil =>
    exact ⟨by simp, fun p _ => rfl, by simp⟩
  | cons a L ih =>
    rw [List.pairwise_cons] at hd
    obtain ⟨hhead, htail⟩ := hd
    have step_eq : drawStep x y i byte (disp, vf) a =
        (upd disp (dIdx x y i (7 - a)) (xor (disp (dIdx x y i (7 - a))) ((byte >>> a) &&& 1 != 0)),
          if disp (dIdx x y i (7 - a)) && ((byte >>> a) &&& 1 != 0) then 1 else vf) := rfl
    rw [List.foldl_cons, step_eq]
    obtain ⟨ih1, ih2, ih3⟩ :=
      ih (upd disp (dIdx x y i (7 - a)) (xor (disp (dIdx x y i (7 - a))) ((byte >>> a) &&& 1 != 0)))
        (if disp (dIdx x y i (7 - a)) && ((byte >>> a) &&& 1 != 0) then 1 else vf) htail
    refine ⟨?_, ?_, ?_⟩
    · intro j hj
      rcases List.mem_cons.mp hj with rfl | hjL
      · rw [ih2 (dIdx x y i (7 - j)) (fun b hb => hhead b hb), upd_same]
      · rw [ih1 j hjL, upd_other _ _ _ _ (Ne.symm (hhead j hjL))]
    · intro p hp
      rw [ih2 p (fun b hb => hp b (List.mem_cons_of_mem a hb)),
        upd_other _ _ _ _ (hp a (List.mem_cons_self a L))]
    · rw [ih3]
      have hcong : (L.any fun j =>
          upd disp (dIdx x y i (7 - a)) (xor (disp (dIdx x y i (7 - a))) ((byte >>> a) &&& 1 != 0))
            (dIdx x y i (7 - j)) && ((byte >>> j) &&& 1 != 0)) =
          (L.any fun j => disp (dIdx x y i (7 - j)) && ((byte >>> j) &&& 1 != 0)) := by
        apply any_congr_mem
        intro b hb
        rw [upd_other _ _ _ _ (Ne.symm (hhead b hb))]
      rw [hcong, List.any_cons]
      cases hA : disp (dIdx x y i (7 - a)) && ((byte >>> a) &&& 1 != 0) <;>
        cases hB : L.any (fun j => disp (dIdx x y i (7 - j)) && ((byte >>> j) &&& 1 != 0)) <;>
          simp [hA, hB]

/-- The row fold of `Dxyn`, restated with the bit offset `t = 7 - j`
counted from the leftmost (most significant) sprite bit. -/
theorem drawRow_char (x y i byte : Nat) (disp : Nat → Bool) (vf : Nat) :
    (∀ t, t < 8 → (drawRow x y i byte (disp, vf)).1 (dIdx x y i t) =
      xor (disp (dIdx x y i t)) (sbit byte t)) ∧
    (∀ p, (∀ t, t < 8 → p ≠ dIdx x y i t) → (drawRow x y i byte (disp, vf)).1 p = disp p) ∧
    ((drawRow x y i byte (disp, vf)).2 =
      if (List.range 8).any (fun t => disp (dIdx x y i t) && sbit byte t) then 1 else vf) := by
  have hd : ((List.range 8).reverse).Pairwise
      (fun a b => dIdx x y i (7 - a) ≠ dIdx x y i (7 - b)) := by
    apply List.Pairwise.imp_of_mem ?_
      ((List.nodup_reverse.mpr (List.nodup_range 8)) : ((List.range 8).reverse).Pairwise (· ≠ ·))
    intro a b ha hb hne
    have ha8 : a < 8 := List.mem_range.mp (List.mem_reverse.mp ha)
    have hb8 : b < 8 := List.mem_range.mp (List.mem_reverse.mp hb)
    simp only [dIdx]
    omega
  obtain ⟨h1, h2, h3⟩ := drawRow_aux x y i byte ((List.range 8).reverse) disp vf hd
  refine ⟨?_, ?_, ?_⟩
  · intro t ht
    have hj : (7 - t) ∈ (List.range 8).reverse := by
      rw [List.mem_reverse, List.mem_range]
      omega
    have h := h1 (7 - t) hj
    rw [show 7 - (7 - t) = t by omega] at h
    exact h
  · intro p hp
    apply h2
    intro j hj
    have hj8 : j < 8 := List.mem_range.mp (List.mem_reverse.mp hj)
    exact hp (7 - j) (by omega)
  · rw [show (drawRow x y i byte (disp, vf)).2 =
        (((List.range 8).reverse).foldl (drawStep x y i byte) (disp, vf)).2 from rfl, h3]
    have hAB : ((List.range 8).reverse.any fun j =>
        disp (dIdx x y i (7 - j)) && ((byte >>> j) &&& 1 != 0)) =
        ((List.range 8).any fun t => disp (dIdx x y i t) && sbit byte t) := by
      rw [List.any_reverse, Bool.eq_iff_iff, List.any_eq_true, List.any_eq_true]
      constructor
      · rintro ⟨j, hjm, hj⟩
        have hj8 := List.mem_range.mp hjm
        refine ⟨7 - j, List.mem_range.mpr (by omega), ?_⟩
        have e : 7 - (7 - j) = j := by omega
        simpa [sbit, e] using hj
      · rintro ⟨t, htm, ht⟩
        have ht8 := List.mem_range.mp htm
        refine ⟨7 - t, List.mem_range.mpr (by omega), ?_⟩
        have e : 7 - (7 - t) = t := by omega
        simpa [sbit, e] using ht
    rw [hAB]

/-- Characterisation of the whole sprite loop over `k ≤ 32` rows: each
target pixel is XOR-ed with its sprite bit once, all other pixels are
untouched, and the flag is 1 exactly when some sprite-on bit hits a
previously-on pixel — the targets of distinct (row, bit) pairs are
distinct, so no write can mask an earlier collision. -/
theorem drawSprite_aux (mem : Nat → Nat) (i0 x y : Nat) (k : Nat) (hk : k ≤ 32)
    (disp : Nat → Bool) (vf : Nat) :
    (∀ i t, i < k → t < 8 → (drawSprite mem i0 x y k (disp, vf)).1 (dIdx x y i t) =
      xor (disp (dIdx x y i t)) (sbit (mem (i0 + i)) t)) ∧
    (∀ p, (∀ i t, i < k → t < 8 → p ≠ dIdx x y i t) →
      (drawSprite mem i0 x y k (disp, vf)).1 p = disp p) ∧
    ((drawSprite mem i0 x y k (disp, vf)).2 =
      if (List.range k).any (fun i => (List.range 8).any (fun t =>
        disp (dIdx x y i t) && sbit (mem (i0 + i)) t)) then 1 else vf) := by
  induction k with
  | zero =>
    exact ⟨fun i t hi _ => absurd hi (by omega), fun p _ => rfl, by simp [drawSprite]⟩
  | succ k ih =>
    obtain ⟨ih1, ih2, ih3⟩ := ih (by omega)
    have hsp : drawSprite mem i0 x y (k + 1) (disp, vf) =
        drawRow x y k (mem (i0 + k)) (drawSprite mem i0 x y k (disp, vf)) := by
      simp only [drawSprite, List.range_succ, List.foldl_append, List.foldl_cons,
        List.foldl_nil]
    obtain ⟨r1, r2, r3⟩ := drawRow_char x y k (mem (i0 + k))
      (drawSprite mem i0 x y k (disp, vf)).1 (drawSprite mem i0 x y k (disp, vf)).2
    refine ⟨?_, ?_, ?_⟩
    · intro i t hi ht
      rcases Nat.lt_or_ge i k with hik | hik
      · rw [hsp, r2 (dIdx x y i t) ?_]
        · exact ih1 i t hik ht
        · intro t' ht'
          simp only [dIdx]
          omega
      · have hik' : i = k := by omega
        subst hik'
        rw [hsp, r1 t ht, ih2 (dIdx x y i t) ?_]
        intro i' t' hi' ht'
        simp only [dIdx]
        omega
    · intro p hp
      rw [hsp, r2 p (fun t' ht' => hp k t' (by omega) ht'),
        ih2 p (fun i' t' hi' ht' => hp i' t' (by omega) ht')]
    · rw [hsp, r3, ih3]
      have hcong : ((List.range 8).any (fun t =>
          (drawSprite mem i0 x y k (disp, vf)).1 (dIdx x y k t) && sbit (mem (i0 + k)) t)) =
          ((List.range 8).any (fun t => disp (dIdx x y k t) && sbit (mem (i0 + k)) t)) := by
        apply any_congr_mem
        intro t htm
        have ht8 := List.mem_range.mp htm
        rw [ih2 (dIdx x y k t) ?_]
        intro i' t' hi' ht'
        simp only [dIdx]
        omega
      rw [hcong, List.range_succ k, List.any_append]
      simp only [List.any_cons, List.any_nil, Bool.or_false]
      cases (List.range 8).any (fun t => disp (dIdx x y k t) && sbit (mem (i0 + k)) t) <;>
        cases (List.range k).any (fun i => (List.range 8).any (fun t =>
          disp (dIdx x y i t) && sbit (mem (i0 + i)) t)) <;>
            rfl

/-- C1: a `Dxyn` cycle reads the `n` sprite bytes at the address
register, XOR-draws bit `t` of row `i` onto pixel
`((Vx + t) mod 64, (Vy + i) mod 32)` (`dIdx`, row-major with the most
significant bit leftmost), touches no other pixel, and ends with
`V15 = 1` exactly when some sprite-on bit hit an already-on pixel
(no later non-colliding write resets it), else `V15 = 0`. -/
theorem C1_draw_sprite (s : Chip8) (r x y n : Nat) (hx : x < 16) (hy : y < 16)
    (hn : n < 16) (htmp : s.tmp = false) (hpc : s.pc + 1 < 4096)
    (hhi : s.memory s.pc = 0xD0 + x) (hlo : s.memory (s.pc + 1) = 16 * y + n)
    (hIn : s.I + n ≤ 4096) :
    ∃ s', Chip8.cycle s r = some s' ∧
      (∀ i t, i < n → t < 8 →
        s'.display (dIdx (s.V x) (s.V y) i t) =
          xor (s.display (dIdx (s.V x) (s.V y) i t)) (sbit (s.memory (s.I + i)) t)) ∧
      (∀ p, (∀ i t, i < n → t < 8 → p ≠ dIdx (s.V x) (s.V y) i t) →
        s'.display p = s.display p) ∧
      s'.V 15 = (if (List.range n).any (fun i => (List.range 8).any (fun t =>
        s.display (dIdx (s.V x) (s.V y) i t) && sbit (s.memory (s.I + i)) t))
        then 1 else 0) ∧
      (s'.V 15 = 1 ↔ ∃ i, i < n ∧ ∃ t, t < 8 ∧
        s.display (dIdx (s.V x) (s.V y) i t) = true ∧
          sbit (s.memory (s.I + i)) t = true) := by
  rw [cycle_eq_dispatch s r htmp hpc, hhi, hlo,
    dispatch_Dxyn { s with pc := s.pc + 2 } r x y n hx hy hn hIn]
  obtain ⟨d1, d2, d3⟩ :=
    drawSprite_aux s.memory s.I (s.V x) (s.V y) n (by omega) s.display 0
  have hVF : (upd (upd s.V 15 0) 15
      (drawSprite s.memory s.I (s.V x) (s.V y) n (s.display, 0)).2) 15 =
      (if (List.range n).any (fun i => (List.range 8).any (fun t =>
        s.display (dIdx (s.V x) (s.V y) i t) && sbit (s.memory (s.I + i)) t))
        then 1 else 0) := by
    rw [upd_same]
    exact d3
  refine ⟨_, rfl, ?_, ?_, ?_, ?_⟩
  · intro i t hi ht
    exact d1 i t hi ht
  · intro p hp
    exact d2 p hp
  · exact hVF
  · show (upd (upd s.V 15 0) 15
      (drawSprite s.memory s.I (s.V x) (s.V y) n (s.display, 0)).2) 15 = 1 ↔ _
    rw [hVF]
    constructor
    · intro h1
      by_cases hA : (List.range n).any (fun i => (List.range 8).any (fun t =>
          s.display (dIdx (s.V x) (s.V y) i t) && sbit (s.memory (s.I + i)) t)) = true
      · rw [List.any_eq_true] at hA
        obtain ⟨i, him, hi⟩ := hA
        rw [List.any_eq_true] at hi
        obtain ⟨t, htm, ht⟩ := hi
        rw [Bool.and_eq_true] at ht
        exact ⟨i, List.mem_range.mp him, t, List.mem_range.mp htm, ht.1, ht.2⟩
      · rw [if_neg hA] at h1
        exact absurd h1 (by norm_num)
    · rintro ⟨i, hi, t, ht, hdisp, hbit⟩
      rw [if_pos ?_]
      rw [List.any_eq_true]
      refine ⟨i, List.mem_range.mpr hi, ?_⟩
      rw [List.any_eq_true]
      refine ⟨t, List.mem_range.mpr ht, ?_⟩
      rw [Bool.and_eq_true]
      exact ⟨hdisp, hbit⟩

/-- C1 witness: opcode `D011` draws the single byte `0x80` at
`(V0, V1) = (0, 0)`: pixel `(0, 0)` turns on and no collision is
flagged. -/
theorem C1_draw_sprite_w :
    ∃ s', Chip8.cycle spriteTestState 0 = some s' ∧
      s'.display (dIdx (spriteTestState.V 0) (spriteTestState.V 1) 0 0) = true ∧
      s'.V 15 = 0 := by
  obtain ⟨s', hcy, h1, h2, h3, h4⟩ :=
    C1_draw_sprite spriteTestState 0 0 1 1 (by decide) (by decide) (by decide)
      (by decide) (by decide) (by decide) (by decide) (by decide)
  refine ⟨s', hcy, ?_, ?_⟩
  · rw [h1 0 0 (by decide) (by decide)]
    decide
  · rw [h3]
    decide

end ChipEmb
